import Mathlib

/-!
# HealthOps referral pipeline — verification development

Shallow embedding of the HealthOps referral-processing core:

* `src/backend/src/services/pipeline_utils.py` — `_deep_merge`, `apply_agent_result`
* `src/backend/src/services/agents/*.py` — the seven stage agents
* `src/scripts/run_pipeline_demo.py` — the orchestration loop
* `src/backend/app.py` — journey event log, autopilot tick, priority score,
  caregiver capacity / load / selection
* `src/backend/src/services/agent_workflow.py` — caregiver matching

Python dict values are modelled by `JVal` (a JSON-like value type); dicts are
association lists whose update discipline mirrors CPython dicts (an existing
key keeps its position, a new key is appended).  Timestamps are modelled as
integers (seconds); the source stores ISO strings and compares elapsed
`total_seconds()` against integer thresholds, so only the affine structure is
observable.
-/

namespace HealthOps

/-- A Python value as it appears in the pipeline's dicts.  `vnone` is Python's
`None`; `vobj` is a dict (insertion-ordered association list); `varr` a list. -/
inductive JVal where
  | vnone : JVal
  | vb : Bool → JVal
  | vs : String → JVal
  | vi : Int → JVal
  | vobj : List (String × JVal) → JVal
  | varr : List JVal → JVal

/-- A Python dict. -/
abbrev JObj := List (String × JVal)

/-- Python truthiness (`bool(v)`). -/
def truthy : JVal → Bool
  | JVal.vnone => false
  | JVal.vb b => b
  | JVal.vs s => s ≠ ""
  | JVal.vi n => n ≠ 0
  | JVal.vobj l => !l.isEmpty
  | JVal.varr l => !l.isEmpty

/-- Python `str.strip()` on characters: drop whitespace from both ends.
(Defined over the character list rather than with the builtin trim so that
idempotence is provable; Python also strips some non-ASCII Unicode whitespace,
which never occurs in this data.) -/
def stripL (l : List Char) : List Char :=
  ((l.dropWhile Char.isWhitespace).reverse.dropWhile Char.isWhitespace).reverse

/-- Python `s.strip()`. -/
def pyStrip (s : String) : String := ⟨stripL s.data⟩

lemma dropWhile_head_false {α : Type} {p : α → Bool} {l : List α} {a : α}
    {t : List α} (h : l.dropWhile p = a :: t) : p a = false := by
  induction l with
  | nil => simp [List.dropWhile] at h
  | cons b l ih =>
      by_cases hb : p b
      · rw [List.dropWhile_cons_of_pos hb] at h
        exact ih h
      · rw [List.dropWhile_cons_of_neg hb] at h
        cases h
        simpa using hb

lemma dropWhile_idem {α : Type} (p : α → Bool) (l : List α) :
    (l.dropWhile p).dropWhile p = l.dropWhile p := by
  cases h : l.dropWhile p with
  | nil => rfl
  | cons a t => simp [List.dropWhile_cons, dropWhile_head_false h]

lemma stripL_dropWhile (l : List Char) :
    (stripL l).dropWhile Char.isWhitespace = stripL l := by
  cases hBr : stripL l with
  | nil => rfl
  | cons a t =>
      have hpre : stripL l <+: l.dropWhile Char.isWhitespace := by
        have hs : ((l.dropWhile Char.isWhitespace).reverse.dropWhile Char.isWhitespace)
            <:+ (l.dropWhile Char.isWhitespace).reverse :=
          List.dropWhile_suffix _
        simpa [stripL] using hs.reverse
      obtain ⟨s, hs⟩ := hpre
      rw [hBr] at hs
      have hA : l.dropWhile Char.isWhitespace = a :: (t ++ s) := by
        rw [← hs]; rfl
      simp [List.dropWhile_cons, dropWhile_head_false hA]

lemma stripL_reverse_dropWhile (l : List Char) :
    (stripL l).reverse.dropWhile Char.isWhitespace = (stripL l).reverse := by
  have h0 : (stripL l).reverse
      = (l.dropWhile Char.isWhitespace).reverse.dropWhile Char.isWhitespace := by
    unfold stripL
    rw [List.reverse_reverse]
  rw [h0, dropWhile_idem]

lemma stripL_idem (l : List Char) : stripL (stripL l) = stripL l := by
  have h2 : stripL (stripL l)
      = (((stripL l).dropWhile Char.isWhitespace).reverse.dropWhile
          Char.isWhitespace).reverse := rfl
  rw [h2, stripL_dropWhile, stripL_reverse_dropWhile, List.reverse_reverse]

lemma pyStrip_idem (s : String) : pyStrip (pyStrip s) = pyStrip s := by
  simp [pyStrip, stripL_idem]

/-- Python `s.upper()` (ASCII case mapping; Python's full Unicode mapping never
differs on this repository's data). -/
def pyUpper (s : String) : String := ⟨s.data.map Char.toUpper⟩

/-- Python `s.lower()`. -/
def pyLowerStr (s : String) : String := ⟨s.data.map Char.toLower⟩

lemma toNat_ofNat_valid (n : Nat) (h : n.isValidChar) : (Char.ofNat n).toNat = n := by
  simp [Char.ofNat, dif_pos h, Char.ofNatAux, Char.toNat, UInt32.toNat]

lemma toUpper_toNat (c : Char) :
    (Char.toUpper c).toNat
      = if c.toNat ≥ 97 ∧ c.toNat ≤ 122 then c.toNat - 32 else c.toNat := by
  unfold Char.toUpper
  by_cases h : c.toNat ≥ 97 ∧ c.toNat ≤ 122
  · simp only [if_pos h]
    exact toNat_ofNat_valid _ (Or.inl (by omega))
  · simp only [if_neg h]

lemma toUpper_eq_self {c : Char} (h : ¬(c.toNat ≥ 97 ∧ c.toNat ≤ 122)) :
    Char.toUpper c = c := by
  unfold Char.toUpper
  rw [if_neg h]

lemma toUpper_not_lower (c : Char) :
    ¬((Char.toUpper c).toNat ≥ 97 ∧ (Char.toUpper c).toNat ≤ 122) := by
  rw [toUpper_toNat]
  split
  · next h => omega
  · next h => exact h

lemma toUpper_toUpper (c : Char) :
    Char.toUpper (Char.toUpper c) = Char.toUpper c :=
  toUpper_eq_self (toUpper_not_lower c)

lemma not_isWhitespace_of_ge {c : Char} (h : 33 ≤ c.toNat) :
    c.isWhitespace = false := by
  have h1 : ¬(c = ' ') := fun he => absurd (he ▸ h) (by decide)
  have h2 : ¬(c = '\t') := fun he => absurd (he ▸ h) (by decide)
  have h3 : ¬(c = '\r') := fun he => absurd (he ▸ h) (by decide)
  have h4 : ¬(c = '\n') := fun he => absurd (he ▸ h) (by decide)
  simp [Char.isWhitespace, h1, h2, h3, h4]

lemma isWhitespace_toUpper (c : Char) :
    (Char.toUpper c).isWhitespace = c.isWhitespace := by
  by_cases h : c.toNat ≥ 97 ∧ c.toNat ≤ 122
  · have hu : 33 ≤ (Char.toUpper c).toNat := by rw [toUpper_toNat, if_pos h]; omega
    rw [not_isWhitespace_of_ge hu, not_isWhitespace_of_ge (by omega)]
  · rw [toUpper_eq_self h]

lemma pyUpper_idem (s : String) : pyUpper (pyUpper s) = pyUpper s := by
  simp only [pyUpper, List.map_map]
  have : Char.toUpper ∘ Char.toUpper = Char.toUpper := funext toUpper_toUpper
  rw [this]

lemma stripL_eq_self {l : List Char}
    (h1 : ∀ a, l.head? = some a → a.isWhitespace = false)
    (h2 : ∀ a, l.getLast? = some a → a.isWhitespace = false) :
    stripL l = l := by
  have hd : l.dropWhile Char.isWhitespace = l := by
    cases l with
    | nil => rfl
    | cons a t => rw [List.dropWhile_cons_of_neg (by simp [h1 a rfl])]
  have hr : l.reverse.dropWhile Char.isWhitespace = l.reverse := by
    cases hlr : l.reverse with
    | nil => rfl
    | cons a t =>
        have ha : l.getLast? = some a := by
          rw [← List.head?_reverse, hlr]
          rfl
        rw [List.dropWhile_cons_of_neg (by simp [h2 a ha])]
  unfold stripL
  rw [hd, hr, List.reverse_reverse]

lemma stripL_head_false {l : List Char} {a : Char} {t : List Char}
    (h : stripL l = a :: t) : a.isWhitespace = false :=
  dropWhile_head_false (by rw [stripL_dropWhile, h])

lemma stripL_getLast_false {l : List Char} {a : Char} {t : List Char}
    (h : (stripL l).reverse = a :: t) : a.isWhitespace = false :=
  dropWhile_head_false (by rw [stripL_reverse_dropWhile, h])

lemma stripL_map_upper (l : List Char) :
    stripL (List.map Char.toUpper (stripL l)) = List.map Char.toUpper (stripL l) := by
  apply stripL_eq_self
  · intro a ha
    rw [List.head?_map] at ha
    cases hh : (stripL l).head? with
    | none => rw [hh] at ha; simp at ha
    | some b =>
        rw [hh] at ha
        cases hsl : stripL l with
        | nil => rw [hsl] at hh; simp at hh
        | cons b' t =>
            rw [hsl] at hh
            simp at hh ha
            rw [← ha, ← hh, isWhitespace_toUpper]
            exact stripL_head_false hsl
  · intro a ha
    rw [List.getLast?_map] at ha
    cases hh : (stripL l).getLast? with
    | none => rw [hh] at ha; simp at ha
    | some b =>
        rw [hh] at ha
        cases hsr : (stripL l).reverse with
        | nil =>
            rw [← List.head?_reverse, hsr] at hh
            simp at hh
        | cons b' t =>
            have hb' : (stripL l).getLast? = some b' := by
              rw [← List.head?_reverse, hsr]
              rfl
            rw [hb'] at hh
            simp at ha hh
            rw [← ha, ← hh, isWhitespace_toUpper]
            exact stripL_getLast_false hsr

lemma pyStrip_pyUpper_pyStrip (s : String) :
    pyStrip (pyUpper (pyStrip s)) = pyUpper (pyStrip s) := by
  show (⟨stripL (List.map Char.toUpper (stripL s.data))⟩ : String)
      = ⟨List.map Char.toUpper (stripL s.data)⟩
  rw [stripL_map_upper]

/-- First binding of `k`, if present (CPython dicts hold each key once; all
operations below preserve that, and lookup takes the leftmost match). -/
def lookup? : JObj → String → Option JVal
  | [], _ => none
  | (k', v) :: rest, k => if k' = k then some v else lookup? rest k

/-- `d.get(k)`: `None` when the key is absent. -/
def getJ (d : JObj) (k : String) : JVal := (lookup? d k).getD JVal.vnone

/-- `d[k] = v`: replace in place if the key exists, else append. -/
def setKey : JObj → String → JVal → JObj
  | [], k, v => [(k, v)]
  | (k', v') :: rest, k, v =>
      if k' = k then (k', v) :: rest else (k', v') :: setKey rest k v

/-- `d.setdefault(k, v)`: only inserts when the key is absent (presence, not
truthiness). -/
def setdefaultK (d : JObj) (k : String) (v : JVal) : JObj :=
  match lookup? d k with
  | some _ => d
  | none => d ++ [(k, v)]

/-- `dst.update(src)` (shallow). -/
def updateAll (dst src : JObj) : JObj :=
  src.foldl (fun acc kv => setKey acc kv.1 kv.2) dst

/-- `x.get(k) or {}` followed by dict access: the dict when the value is one,
else the empty dict.  (On a *truthy* non-dict the source would raise
`AttributeError` at the subsequent `.get`; contexts produced by the pipeline
never hold such a shape at these keys, and theorems quantifying over raw
contexts do not rely on this corner.) -/
def getObjOr (d : JObj) (k : String) : JObj :=
  match getJ d k with
  | JVal.vobj l => l
  | _ => []

/-- `_deep_merge` (`pipeline_utils.py` lines 4–10): for each key of `src`, if
both sides are dicts merge recursively, otherwise the patch value replaces the
existing value.  Total — no merge ever raises. -/
def deepMerge : JObj → JObj → JObj
  | dst, [] => dst
  | dst, (k, JVal.vobj s) :: rest =>
      (match getJ dst k with
       | JVal.vobj d => deepMerge (setKey dst k (JVal.vobj (deepMerge d s))) rest
       | _ => deepMerge (setKey dst k (JVal.vobj s)) rest)
  | dst, (k, v) :: rest => deepMerge (setKey dst k v) rest
termination_by _ src => sizeOf src
decreasing_by all_goals (simp_wf <;> omega)

/-- Is the value a dict? (`isinstance(v, dict)`). -/
def isObjB : JVal → Bool
  | JVal.vobj _ => true
  | _ => false

lemma lookup?_setKey_self (d : JObj) (k : String) (v : JVal) :
    lookup? (setKey d k v) k = some v := by
  induction d with
  | nil => simp [setKey, lookup?]
  | cons hd tl ih =>
      by_cases h : hd.1 = k
      · simp [setKey, lookup?, h]
      · simp [setKey, lookup?, h, ih]

lemma lookup?_setKey_ne (d : JObj) (k k' : String) (v : JVal) (h : k' ≠ k) :
    lookup? (setKey d k v) k' = lookup? d k' := by
  have hne : ¬k = k' := fun he => h he.symm
  induction d with
  | nil => simp [setKey, lookup?, hne]
  | cons hd tl ih =>
      obtain ⟨k0, v0⟩ := hd
      by_cases hk : k0 = k
      · subst hk; simp [setKey, lookup?, hne]
      · by_cases hk' : k0 = k' <;> simp [setKey, lookup?, hk, hk', ih, h]

lemma isObjB_iff (v : JVal) : isObjB v = true ↔ ∃ l, v = JVal.vobj l := by
  cases v <;> simp [isObjB]

lemma deepMerge_nil (d : JObj) : deepMerge d [] = d := by
  simp [deepMerge]

lemma deepMerge_single_notObj (d : JObj) (k : String) (v : JVal)
    (h : isObjB v = false) : deepMerge d [(k, v)] = setKey d k v := by
  cases v <;> simp_all [deepMerge, isObjB]

lemma deepMerge_single_obj_obj (d : JObj) (k : String) (s d0 : JObj)
    (h : getJ d k = JVal.vobj d0) :
    deepMerge d [(k, JVal.vobj s)] = setKey d k (JVal.vobj (deepMerge d0 s)) := by
  simp [deepMerge, h]

lemma deepMerge_single_obj_notObj (d : JObj) (k : String) (s : JObj)
    (h : isObjB (getJ d k) = false) :
    deepMerge d [(k, JVal.vobj s)] = setKey d k (JVal.vobj s) := by
  cases hg : getJ d k <;> simp_all [deepMerge, isObjB]

lemma getJ_deepMerge_single_obj_notObj (d : JObj) (k : String) (s : JObj)
    (h : isObjB (getJ d k) = false) :
    getJ (deepMerge d [(k, JVal.vobj s)]) k = JVal.vobj s := by
  rw [deepMerge_single_obj_notObj d k s h]
  simp [getJ, lookup?_setKey_self]

/-- Merging a one-entry patch always amounts to a `setKey` of some value. -/
lemma deepMerge_single_set (d : JObj) (k : String) (v : JVal) :
    ∃ w, deepMerge d [(k, v)] = setKey d k w := by
  cases v with
  | vobj s =>
      cases hg : getJ d k with
      | vobj d0 => exact ⟨_, deepMerge_single_obj_obj d k s d0 hg⟩
      | vnone => exact ⟨_, deepMerge_single_obj_notObj d k s (by simp [hg, isObjB])⟩
      | vb b => exact ⟨_, deepMerge_single_obj_notObj d k s (by simp [hg, isObjB])⟩
      | vs s' => exact ⟨_, deepMerge_single_obj_notObj d k s (by simp [hg, isObjB])⟩
      | vi n => exact ⟨_, deepMerge_single_obj_notObj d k s (by simp [hg, isObjB])⟩
      | varr l => exact ⟨_, deepMerge_single_obj_notObj d k s (by simp [hg, isObjB])⟩
  | vnone => exact ⟨_, deepMerge_single_notObj d k _ rfl⟩
  | vb b => exact ⟨_, deepMerge_single_notObj d k _ rfl⟩
  | vs s => exact ⟨_, deepMerge_single_notObj d k _ rfl⟩
  | vi n => exact ⟨_, deepMerge_single_notObj d k _ rfl⟩
  | varr l => exact ⟨_, deepMerge_single_notObj d k _ rfl⟩

/-- C8. The context deep-merge (`_deep_merge`): a later patch wins on a scalar
field; patches to disjoint sub-keys of one map field both survive; a map/non-map
collision is resolved by patch-wins.  `deepMerge` is a total function, so no
input raises an error. -/
theorem c8_deep_merge_semantics (d s : JObj) (f a b : String) (v1 v2 x y : JVal) :
    (isObjB v1 = false → isObjB v2 = false →
      lookup? (deepMerge (deepMerge d [(f, v1)]) [(f, v2)]) f = some v2)
    ∧ (a ≠ b →
      ∃ o, lookup? (deepMerge (deepMerge d [(f, JVal.vobj [(a, x)])])
              [(f, JVal.vobj [(b, y)])]) f = some (JVal.vobj o)
        ∧ (lookup? o a).isSome ∧ (lookup? o b).isSome)
    ∧ (isObjB (getJ d f) = false →
      lookup? (deepMerge d [(f, JVal.vobj s)]) f = some (JVal.vobj s))
    ∧ (isObjB v1 = false → lookup? (deepMerge d [(f, v1)]) f = some v1) := by
  refine ⟨fun _ h2 => ?_, fun hab => ?_, fun h => ?_, fun h1 => ?_⟩
  · rw [deepMerge_single_notObj _ _ _ h2, lookup?_setKey_self]
  · -- P1 turns field `f` into a dict containing `a`; P2 merges `b` into it.
    have step2 : ∀ (m o1 : JObj), getJ m f = JVal.vobj o1 → (lookup? o1 a).isSome →
        ∃ o, lookup? (deepMerge m [(f, JVal.vobj [(b, y)])]) f = some (JVal.vobj o)
          ∧ (lookup? o a).isSome ∧ (lookup? o b).isSome := by
      intro m o1 hm ha
      obtain ⟨w, hw⟩ := deepMerge_single_set o1 b y
      refine ⟨setKey o1 b w, ?_, ?_, ?_⟩
      · rw [deepMerge_single_obj_obj m f _ o1 hm, hw, lookup?_setKey_self]
      · rw [lookup?_setKey_ne _ _ _ _ hab]; exact ha
      · rw [lookup?_setKey_self]; simp
    cases hio : isObjB (getJ d f) with
    | true =>
        obtain ⟨d0, hg⟩ := (isObjB_iff _).1 hio
        obtain ⟨w, hw⟩ := deepMerge_single_set d0 a x
        refine step2 _ (setKey d0 a w) ?_ ?_
        · rw [deepMerge_single_obj_obj d f _ d0 hg, hw]
          simp [getJ, lookup?_setKey_self]
        · rw [lookup?_setKey_self]; simp
    | false =>
        refine step2 _ [(a, x)] ?_ (by simp [lookup?])
        exact getJ_deepMerge_single_obj_notObj d f _ hio
  · rw [deepMerge_single_obj_notObj _ _ _ h, lookup?_setKey_self]
  · rw [deepMerge_single_notObj _ _ _ h1, lookup?_setKey_self]

/-- Witness for C8 at a concrete store and concrete patch values. -/
theorem c8_deep_merge_semantics_witness :
    lookup? (deepMerge (deepMerge [("f", JVal.vi 7)] [("f", JVal.vs "p1")])
      [("f", JVal.vs "p2")]) "f" = some (JVal.vs "p2")
    ∧ ∃ o, lookup? (deepMerge (deepMerge [("f", JVal.vi 7)]
          [("f", JVal.vobj [("a", JVal.vi 1)])])
          [("f", JVal.vobj [("b", JVal.vi 2)])]) "f" = some (JVal.vobj o)
        ∧ (lookup? o "a").isSome ∧ (lookup? o "b").isSome := by
  refine ⟨?_, ?_⟩
  · exact (c8_deep_merge_semantics [("f", JVal.vi 7)] [] "f" "a" "b"
      (JVal.vs "p1") (JVal.vs "p2") JVal.vnone JVal.vnone).1 rfl rfl
  · exact ((c8_deep_merge_semantics [("f", JVal.vi 7)] [] "f" "a" "b"
      (JVal.vs "p1") (JVal.vs "p2") (JVal.vi 1) (JVal.vi 2)).2.1 (by decide))

/-! ## Context and merge engine (`pipeline_utils.apply_agent_result`) -/

/-- Python `str()` of a value.  Scalar cases are exact; the container cases
(`repr` of a dict/list) are abbreviated — no modelled code path ever applies
`str` to a container. -/
def pyStr : JVal → String
  | JVal.vs s => s
  | JVal.vi n => toString n
  | JVal.vb true => "True"
  | JVal.vb false => "False"
  | JVal.vnone => "None"
  | JVal.vobj _ => "{...}"
  | JVal.varr _ => "[...]"

/-- Python `a or b`: `a` when truthy, else `b`. -/
def pyOr (a b : JVal) : JVal := if truthy a then a else b

/-- `.lower()` of a string value.  (The source raises `AttributeError` on a
non-string; no modelled caller reaches that case.) -/
def pyLower : JVal → JVal
  | JVal.vs s => JVal.vs (pyLowerStr s)
  | v => v

/-- `isinstance(v, str) and v.strip()`: the stripped string when it is a
non-blank string, else `none`. -/
def strippedStr? : JVal → Option String
  | JVal.vs s => if (pyStrip s) = "" then none else some (pyStrip s)
  | _ => none

/-- The shared evaluation context.  The source keeps one big dict; the keys the
pipeline reads and writes are modelled as record fields (`fields` is
`context["extraction"]["extraction"]["fields"]`, which `apply_agent_result`
re-creates after every merge — in the record model those `setdefault`s are
structural no-ops).  `extracted_text` (written by a compatibility bridge and
read by nothing modelled here) is omitted. -/
structure Ctx where
  state : String
  decisions : JObj
  actions : List JVal
  normalized : JObj
  fields : JObj

/-- An agent's `result.data` dict.  `""`/`[]` model an absent (or `None`/empty)
key, which is exactly how `apply_agent_result` treats them (truthiness).
`missing` is emitted by `IntakeCompleteAgent` and ignored by the merge. -/
structure AgentData where
  state : String := ""
  decisions : JObj := []
  normalized_patch : JObj := []
  normalizedPayload : JObj := []
  actions_add : List JVal := []
  missing : List String := []

/-- `AgentResult` (`agent_base.py`): `issues = []` models `issues=None`. -/
structure AgentResult where
  name : String
  success : Bool
  data : AgentData
  issues : List String := []

/-- `apply_agent_result` lines 25–50: merge decisions, deep-merge
`normalized_patch` and then the direct `normalized` payload, extend actions,
replace `state` when the result carries a truthy one.  (`if not result_data:
return context` is the all-defaults record, on which every step below is a
no-op.) -/
def mergeStep (ctx : Ctx) (d : AgentData) : Ctx :=
  let decisions := updateAll ctx.decisions d.decisions
  let n := if d.normalized_patch.isEmpty then ctx.normalized
           else deepMerge ctx.normalized d.normalized_patch
  let n := if d.normalizedPayload.isEmpty then n else deepMerge n d.normalizedPayload
  let actions := ctx.actions ++ d.actions_add
  let state := if d.state ≠ "" then d.state else ctx.state
  { state := state, decisions := decisions, actions := actions,
    normalized := n, fields := ctx.fields }

/-- `apply_agent_result` lines 87–106: populate the legacy extraction `fields`
from normalized keys (`setdefault`: only when the key is absent). -/
def bridgeFields (c : Ctx) : Ctx :=
  { c with fields :=
      let norm := c.normalized
      let f := c.fields
      let f := match getJ norm "patient" with
        | JVal.vobj p =>
            let f := if truthy (getJ p "name") then
                       setdefaultK f "patient_name" (getJ p "name") else f
            if truthy (getJ p "dob") then
              setdefaultK f "date_of_birth" (getJ p "dob") else f
        | _ => f
      let f := if truthy (getJ norm "patient_name") then
                 setdefaultK f "patient_name" (getJ norm "patient_name") else f
      let f := if truthy (getJ norm "date_of_birth") then
                 setdefaultK f "date_of_birth" (getJ norm "date_of_birth") else f
      let f := if truthy (getJ norm "member_id") then
                 setdefaultK f "member_id" (getJ norm "member_id") else f
      match getJ norm "payer" with
      | JVal.vobj p => if truthy (getJ p "member_id") then
                         setdefaultK f "member_id" (getJ p "member_id") else f
      | _ => f }

/-- Lines 111–119: coerce `normalized[k]` into a dict, keeping a stringified
`name` for a non-`None` non-dict value. -/
def coerceNamed (n : JObj) (k : String) : JObj :=
  match lookup? n k with
  | some (JVal.vobj _) => n
  | some JVal.vnone => setKey n k (JVal.vobj [])
  | none => setKey n k (JVal.vobj [])
  | some v => setKey n k (JVal.vobj [("name", JVal.vs (pyStr v))])

/-- Lines 121–124: coerce `normalized["referral"]` into a dict (no value kept). -/
def coerceReferral (n : JObj) : JObj :=
  match lookup? n "referral" with
  | some (JVal.vobj _) => n
  | _ => setKey n "referral" (JVal.vobj [])

/-- Update the dict stored at `n[k]` (always present as a dict after the
coercions above; otherwise leave `n` unchanged). -/
def updAt (n : JObj) (k : String) (f : JObj → JObj) : JObj :=
  match lookup? n k with
  | some (JVal.vobj o) => setKey n k (JVal.vobj (f o))
  | _ => n

/-- Lines 127–143: map flat patient keys into `normalized["patient"]`. -/
def derivePatientN (n : JObj) : JObj :=
  let n := if truthy (getJ n "patient_name")
              && !(truthy (getJ (getObjOr n "patient") "name"))
           then updAt n "patient" (fun p => setKey p "name" (getJ n "patient_name")) else n
  let n := if truthy (getJ n "date_of_birth")
              && !(truthy (getJ (getObjOr n "patient") "dob"))
           then updAt n "patient" (fun p => setKey p "dob" (getJ n "date_of_birth")) else n
  let addr := pyOr (getJ n "patient_address") (getJ n "address")
  let city := pyOr (getJ n "patient_city") (getJ n "city")
  let zipc := pyOr (getJ n "patient_zip") (getJ n "zip")
  let phone := pyOr (getJ n "patient_phone") (getJ n "phone")
  let n := if truthy addr && !(truthy (getJ (getObjOr n "patient") "address"))
           then updAt n "patient" (fun p => setKey p "address"
             (if !(truthy city) then addr
              else JVal.vs (pyStr addr ++ ", " ++ pyStr city
                ++ (if truthy zipc then " " ++ pyStr zipc else ""))))
           else n
  let n := if truthy city && !(truthy (getJ (getObjOr n "patient") "city"))
           then updAt n "patient" (fun p => setKey p "city" city) else n
  let n := if truthy zipc && !(truthy (getJ (getObjOr n "patient") "zip"))
           then updAt n "patient" (fun p => setKey p "zip" zipc) else n
  if truthy phone && !(truthy (getJ (getObjOr n "patient") "phone"))
  then updAt n "patient" (fun p => setKey p "phone" phone) else n

/-- Lines 144–155, first half: copy `payer_val`'s name/member-id into
`payer_norm`.  (After the coercion both names alias the same dict, so the two
guards in the dict branch compare a value with itself and never fire; they are
kept as written.) -/
def payerFromVal (n0 : JObj) : JObj :=
  match getJ n0 "payer" with
  | JVal.vobj pv =>
      let n := if truthy (getJ pv "name")
                  && !(truthy (getJ (getObjOr n0 "payer") "name"))
               then updAt n0 "payer" (fun p => setKey p "name" (getJ pv "name")) else n0
      if truthy (getJ pv "member_id")
         && !(truthy (getJ (getObjOr n "payer") "member_id"))
      then updAt n "payer" (fun p => setKey p "member_id" (getJ pv "member_id")) else n
  | v => if truthy v && !(truthy (getJ (getObjOr n0 "payer") "name"))
         then updAt n0 "payer" (fun p => setKey p "name" v) else n0

/-- Lines 154–155: flat `member_id` into the payer dict. -/
def payerFlatMember (n : JObj) : JObj :=
  if truthy (getJ n "member_id")
     && !(truthy (getJ (getObjOr n "payer") "member_id"))
  then updAt n "payer" (fun p => setKey p "member_id" (getJ n "member_id")) else n

/-- Lines 157–167: the demo fallback — derive a missing member id from
`authorization_number`, else from `referral_id`. -/
def payerFallback (n : JObj) : JObj :=
  if !(truthy (getJ (getObjOr n "payer") "member_id")) then
    match strippedStr? (getJ n "authorization_number") with
    | some m => updAt n "payer" (fun p => setKey p "member_id" (JVal.vs m))
    | none =>
      match strippedStr? (getJ n "referral_id") with
      | some m => updAt n "payer" (fun p => setKey p "member_id" (JVal.vs m))
      | none => n
  else n

/-- Lines 169–171: keep the legacy `fields["member_id"]` in sync. -/
def payerFieldsSync (n : JObj) (fields0 : JObj) : JObj :=
  if truthy (getJ (getObjOr n "payer") "member_id")
     && !(truthy (getJ fields0 "member_id"))
  then setKey fields0 "member_id" (getJ (getObjOr n "payer") "member_id")
  else fields0

def payerSync (n0 : JObj) (fields0 : JObj) : JObj × JObj :=
  let n := payerFallback (payerFlatMember (payerFromVal n0))
  (n, payerFieldsSync n fields0)

/-- Lines 173–175: coerce `normalized["assessment"]` into a dict. -/
def assessCoerce (n : JObj) : JObj :=
  match lookup? n "assessment" with
  | some (JVal.vobj _) => n
  | _ => setKey n "assessment" (JVal.vobj [])

/-- Lines 177–178: flat `assessment_date` into the assessment dict. -/
def assessDate (n : JObj) : JObj :=
  if truthy (getJ n "assessment_date")
     && !(truthy (getJ (getObjOr n "assessment") "date"))
  then updAt n "assessment" (fun a => setKey a "date" (getJ n "assessment_date")) else n

/-- Lines 179–180: flat `assessment_status` (lower-cased) into the dict. -/
def assessStatus (n : JObj) : JObj :=
  if truthy (getJ n "assessment_status")
     && !(truthy (getJ (getObjOr n "assessment") "status"))
  then updAt n "assessment"
    (fun a => setKey a "status" (pyLower (getJ n "assessment_status"))) else n

/-- Lines 182–185: the `assessment_completed` yes/true/… flag sets
`status = "complete"`. -/
def assessCompleted (n : JObj) : JObj :=
  let completed_val := match pyOr (getJ n "assessment_completed") (JVal.vs "") with
    | JVal.vs s => pyLowerStr (pyStrip s)
    | _ => ""
  if completed_val ≠ "" && !(truthy (getJ (getObjOr n "assessment") "status")) then
    (if completed_val ∈ ["yes", "true", "completed", "complete", "done"]
     then updAt n "assessment" (fun a => setKey a "status" (JVal.vs "complete"))
     else n)
  else n

/-- Lines 187–193: document-date fallbacks for `assessment.date`. -/
def assessDateFallback (n : JObj) : JObj :=
  if !(truthy (getJ (getObjOr n "assessment") "date")) then
    match strippedStr? (getJ n "signed_date") with
    | some s => updAt n "assessment" (fun a => setKey a "date" (JVal.vs s))
    | none =>
      match strippedStr? (getJ n "date_of_service") with
      | some s => updAt n "assessment" (fun a => setKey a "date" (JVal.vs s))
      | none =>
        match strippedStr? (getJ n "issued_date") with
        | some s => updAt n "assessment" (fun a => setKey a "date" (JVal.vs s))
        | none => n
  else n

/-- Lines 195–198: a dated assessment without a status becomes `complete`. -/
def assessFinal (n : JObj) : JObj :=
  if !(truthy (getJ (getObjOr n "assessment") "status"))
     && truthy (getJ (getObjOr n "assessment") "date")
  then updAt n "assessment" (fun a => setKey a "status" (JVal.vs "complete")) else n

/-- Lines 173–198: coerce `normalized["assessment"]` and derive its
`date`/`status` from flat keys, the completed flag, and document-date
fallbacks. -/
def deriveAssessment (n : JObj) : JObj :=
  assessFinal (assessDateFallback (assessCompleted (assessStatus (assessDate (assessCoerce n)))))

/-- Lines 200–207: derive `referral.requested_service` from
`procedure` / `service_category`. -/
def deriveService (n : JObj) : JObj :=
  let proc := getJ n "procedure"
  let svc := getJ n "service_category"
  if !(truthy (getJ (getObjOr n "referral") "requested_service")) then
    (if truthy proc && truthy svc then
       updAt n "referral" (fun r => setKey r "requested_service"
         (JVal.vs (pyStr svc ++ " - " ++ pyStr proc)))
     else if truthy proc then
       updAt n "referral" (fun r => setKey r "requested_service" proc)
     else n)
  else n

/-- `apply_agent_result(context, result_data)`: the merge step followed by the
compatibility bridges, in source order.  (The `extracted_text` bridge, lines
52–79, only writes `context["extracted_text"]`, which nothing modelled reads;
it is omitted.) -/
def applyAgentResult (ctx : Ctx) (d : AgentData) : Ctx :=
  let c := bridgeFields (mergeStep ctx d)
  let c := { c with normalized :=
      (coerceReferral (coerceNamed (coerceNamed c.normalized "patient") "payer")) }
  let c := { c with normalized := derivePatientN c.normalized }
  let p := payerSync c.normalized c.fields
  let c := { c with normalized := p.1, fields := p.2 }
  { c with normalized := deriveService (deriveAssessment c.normalized) }

/-! ## Pipeline states and stage agents -/

/-- Modelled from the spec: `src/services/pipeline_states.py` (the
`PipelineState` enum the agents import) is not in the source tree; spec §3
fixes the ordered enumeration `REFERRAL_RECEIVED → INTAKE_COMPLETE →
ASSESSMENT_COMPLETE → ELIGIBILITY_VERIFIED → AUTH_PENDING → AUTH_APPROVED →
READY_TO_SCHEDULE`, whose `.value` strings are the stage names. -/
def pipelineOrder : List String :=
  ["REFERRAL_RECEIVED", "INTAKE_COMPLETE", "ASSESSMENT_COMPLETE",
   "ELIGIBILITY_VERIFIED", "AUTH_PENDING", "AUTH_APPROVED", "READY_TO_SCHEDULE"]

/-- The `.value` string of the `i`-th pipeline state. -/
def stateStr (i : Nat) : String := pipelineOrder.getD i ""

/-- Index of a state string in the pipeline ordering (traces produced below
only ever hold the seven enum strings). -/
def stateIdx (s : String) : Nat := pipelineOrder.indexOf s

/-- `ReferralReceivedAgent.run`. -/
def referralReceivedRun (ctx : Ctx) : AgentResult :=
  let fields := ctx.fields
  let patient_name := pyOr (getJ fields "patient_name") (getJ fields "name")
  let dob := pyOr (getJ fields "dob") (getJ fields "date_of_birth")
  let member_id := pyOr (getJ fields "member_id") (getJ fields "insurance_id")
  let issues : List String :=
    if !((truthy patient_name && truthy dob) || truthy member_id) then
      ["Need patient_name+dob OR member_id to open case"]
    else []
  let success := issues.length == 0
  { name := "ReferralReceivedAgent", success := success,
    data := { state := if success then stateStr 1 else stateStr 0,
              decisions := [("referral_received", JVal.vb success)],
              normalized_patch :=
                [("patient", JVal.vobj [("name", patient_name), ("dob", dob)]),
                 ("payer", JVal.vobj [("member_id", member_id)])] },
    issues := issues }

/-- `IntakeCompleteAgent.run`. -/
def intakeCompleteRun (ctx : Ctx) : AgentResult :=
  let normalized := ctx.normalized
  let patient := getObjOr normalized "patient"
  let payer := getObjOr normalized "payer"
  let referral := getObjOr normalized "referral"
  let has_patient_core := truthy (getJ patient "name") && truthy (getJ patient "dob")
  let has_member := truthy (getJ payer "member_id")
  let missing : List String :=
    (if !has_patient_core && !has_member then
       ["patient.name", "patient.dob", "payer.member_id"] else [])
    ++ (if !(truthy (getJ payer "name")) then ["payer.name"] else [])
    ++ (if !(truthy (getJ referral "requested_service")) then
          ["referral.requested_service"] else [])
  let success := missing.length == 0
  { name := "IntakeCompleteAgent", success := success,
    data := { state := if success then stateStr 2 else stateStr 1,
              decisions := [("intake_complete", JVal.vb success)],
              actions_add :=
                if success then [] else
                  [JVal.vobj [("type", JVal.vs "MISSING_INFO"),
                              ("owner", JVal.vs "Intake"),
                              ("missing", JVal.varr (missing.map JVal.vs))]],
              missing := missing },
    issues := missing }

/-- `AssessmentCompleteAgent.run` (`status == "complete"` is Python string
equality, so only the exact string passes). -/
def assessmentCompleteRun (ctx : Ctx) : AgentResult :=
  let normalized := ctx.normalized
  let assessment := getObjOr normalized "assessment"
  let statusComplete := match getJ assessment "status" with
    | JVal.vs s => s == "complete"
    | _ => false
  let assessment_done := statusComplete || truthy (getJ assessment "date")
  let issues : List String :=
    if !assessment_done then
      ["Assessment not confirmed (need assessment.date or assessment.status=complete)"]
    else []
  let success := issues.length == 0
  { name := "AssessmentCompleteAgent", success := success,
    data := { state := if success then stateStr 3 else stateStr 2,
              decisions := [("assessment_complete", JVal.vb success)] },
    issues := issues }

/-- `EligibilityVerifiedAgent.run`. -/
def eligibilityVerifiedRun (ctx : Ctx) : AgentResult :=
  let normalized := ctx.normalized
  let payer := getObjOr normalized "payer"
  let issues : List String :=
    (if !(truthy (getJ payer "name")) then ["payer.name missing"] else [])
    ++ (if !(truthy (getJ payer "member_id")) then ["payer.member_id missing"] else [])
  let success := issues.length == 0
  { name := "EligibilityVerifiedAgent", success := success,
    data := { state := if success then stateStr 4 else stateStr 3,
              decisions := [("eligibility_verified", JVal.vb success)],
              normalized_patch :=
                if success then [("eligibility", JVal.vobj [("status", JVal.vs "verified")])]
                else [],
              actions_add :=
                if success then [] else
                  [JVal.vobj [("type", JVal.vs "ELIGIBILITY_VERIFY"),
                              ("owner", JVal.vs "Ops"),
                              ("missing", JVal.varr (issues.map JVal.vs))]] },
    issues := issues }

/-- Services whose requested service forces authorization
(`AUTH_REQUIRED_SERVICES`). -/
def authRequiredServices : List String := ["ECM", "Community Support", "CS"]

/-- `AuthPendingAgent.run`. -/
def authPendingRun (ctx : Ctx) : AgentResult :=
  let normalized := ctx.normalized
  let referral := getObjOr normalized "referral"
  let service := match pyOr (getJ referral "requested_service") (JVal.vs "") with
    | JVal.vs s => (pyStrip s)
    | _ => ""
  let auth_required_flag := pyLowerStr (pyStrip (pyStr (pyOr
    (getJ normalized "authorization_required") (JVal.vs ""))))
  if service = "" then
    { name := "AuthPendingAgent", success := false,
      data := { state := stateStr 4,
                decisions := [("auth_planned", JVal.vb false)] },
      issues := ["referral.requested_service missing"] }
  else
    let auth_required :=
      if auth_required_flag ∈ ["y", "yes", "true", "1"] then true
      else if auth_required_flag ∈ ["n", "no", "false", "0"] then false
      else service ∈ authRequiredServices
    { name := "AuthPendingAgent", success := true,
      data := { state := stateStr 5,
                decisions := [("auth_required", JVal.vb auth_required),
                              ("auth_planned", JVal.vb true)],
                normalized_patch :=
                  [("auth", JVal.vobj [("required", JVal.vb auth_required),
                    ("status", JVal.vs (if auth_required then "pending" else "not_required"))])],
                actions_add :=
                  if auth_required then
                    [JVal.vobj [("type", JVal.vs "SUBMIT_AUTH"),
                                ("owner", JVal.vs "Auth Team"),
                                ("service", JVal.vs service)]]
                  else [] },
      issues := [] }

/-- `v is False`: Python identity with the singleton bool `False`. -/
def isFalseB : JVal → Bool
  | JVal.vb false => true
  | _ => false

/-- `AuthApprovedAgent.run` (`auth.get("required") is False` is a Python
identity test, so only the bool `False` short-circuits). -/
def authApprovedRun (ctx : Ctx) : AgentResult :=
  let normalized := ctx.normalized
  let auth := getObjOr normalized "auth"
  let normalized_status := pyLowerStr (pyStrip (pyStr (pyOr
    (getJ normalized "authorization_status") (JVal.vs ""))))
  let auth_number := getJ normalized "authorization_number"
  let start := getJ normalized "authorization_start_date"
  let «end» := getJ normalized "authorization_end_date"
  if isFalseB (getJ auth "required") then
    { name := "AuthApprovedAgent", success := true,
      data := { state := stateStr 6,
                decisions := [("auth_approved", JVal.vb true)] },
      issues := [] }
  else
    let issues : List String :=
      (if !(truthy auth_number) then ["auth_number missing"] else [])
      ++ (if !(truthy start) then ["auth_start_date missing"] else [])
      ++ (if !(truthy «end») then ["auth_end_date missing"] else [])
    let honored := truthy (getJ auth "required") && normalized_status == "approved"
    let success := if honored then true else issues.length == 0
    let issues := if honored then [] else issues
    { name := "AuthApprovedAgent", success := success,
      data := { state := if success then stateStr 6 else stateStr 5,
                decisions := [("auth_approved", JVal.vb success)],
                normalized_patch :=
                  if success then
                    [("auth", JVal.vobj [("status", JVal.vs "approved"),
                      ("auth_number", auth_number), ("start_date", start),
                      ("end_date", «end»)])]
                  else [] },
      issues := issues }

/-- `ReadyToScheduleAgent.run`. -/
def readyToScheduleRun (ctx : Ctx) : AgentResult :=
  let normalized := ctx.normalized
  let patient := getObjOr normalized "patient"
  let eligibility := getObjOr normalized "eligibility"
  let auth := getObjOr normalized "auth"
  let issues : List String :=
    (if !(truthy (getJ patient "phone")) && !(truthy (getJ patient "address")) then
       ["Need patient phone or address"] else [])
    ++ (if (match getJ eligibility "status" with
            | JVal.vs s => s != "verified"
            | _ => true) then ["Eligibility not verified"] else [])
    ++ (if truthy (getJ auth "required")
           && (match getJ auth "status" with
               | JVal.vs s => s != "approved"
               | _ => true) then ["Auth required but not approved"] else [])
  let success := issues.length == 0
  { name := "ReadyToScheduleAgent", success := success,
    data := { state := stateStr 6,
              decisions := [("ready_to_schedule", JVal.vb success)],
              actions_add :=
                if success then [] else
                  [JVal.vobj [("type", JVal.vs "SCHEDULING_BLOCKER"),
                              ("owner", JVal.vs "Scheduler"),
                              ("blockers", JVal.varr (issues.map JVal.vs))]] },
    issues := issues }

/-- The seven stage agents in the order both pipeline scripts register them. -/
def stageAgents : List (Ctx → AgentResult) :=
  [referralReceivedRun, intakeCompleteRun, assessmentCompleteRun,
   eligibilityVerifiedRun, authPendingRun, authApprovedRun, readyToScheduleRun]

/-- The orchestration loop of `run_pipeline_demo.main` (and
`run_pipeline_from_csv.run_for_row`): run each agent, immediately apply its
result data, keep the result, and stop after the first failure.  Returns the
audit trail and the final context as a value — the loop raises nothing. -/
def runPipeline : List (Ctx → AgentResult) → Ctx → List AgentResult × Ctx
  | [], ctx => ([], ctx)
  | a :: rest, ctx =>
      let r := a ctx
      let ctx' := applyAgentResult ctx r.data
      if r.success then
        let (rs, cf) := runPipeline rest ctx'
        (r :: rs, cf)
      else ([r], ctx')

/-- The successive contexts observed after each merge of the same loop. -/
def pipelineCtxs : List (Ctx → AgentResult) → Ctx → List Ctx
  | [], _ => []
  | a :: rest, ctx =>
      let r := a ctx
      let ctx' := applyAgentResult ctx r.data
      if r.success then ctx' :: pipelineCtxs rest ctx' else [ctx']

/-! ## Orchestration theorems (C1, C2, C9) -/

/-- Reference narration of §4.3: the context seen by the `i`-th agent, with
every earlier agent's result applied immediately after it ran. -/
def runCtxAt (agents : List (Ctx → AgentResult)) (ctx : Ctx) (i : Nat) : Ctx :=
  (agents.take i).foldl (fun c a => applyAgentResult c ((a c).data)) ctx

lemma runCtxAt_cons (a : Ctx → AgentResult) (rest : List (Ctx → AgentResult))
    (ctx : Ctx) (i : Nat) :
    runCtxAt (a :: rest) ctx (i + 1)
      = runCtxAt rest (applyAgentResult ctx ((a ctx).data)) i := by
  simp [runCtxAt, List.take_succ_cons]

/-- C1. The orchestration loop (`run_pipeline_demo.main`, step 3): agents run
strictly in the given order, each one on the context with all earlier results
already applied; every non-final result succeeded (so nothing runs past a
failure); a truncated trail ends in the failing result; and the final context
has the failing agent's result applied.  `runPipeline` is a total function —
the trail is returned as a value, never thrown. -/
theorem c1_orchestrator (agents : List (Ctx → AgentResult)) (ctx : Ctx) :
    (runPipeline agents ctx).1.length ≤ agents.length
    ∧ (∀ i, i < (runPipeline agents ctx).1.length →
        (runPipeline agents ctx).1[i]?
          = (agents[i]?).map (fun a => a (runCtxAt agents ctx i)))
    ∧ (∀ i, i + 1 < (runPipeline agents ctx).1.length →
        ∃ r, (runPipeline agents ctx).1[i]? = some r ∧ r.success = true)
    ∧ ((runPipeline agents ctx).1.length < agents.length →
        ∃ r, (runPipeline agents ctx).1[(runPipeline agents ctx).1.length - 1]?
              = some r ∧ r.success = false)
    ∧ (runPipeline agents ctx).2
        = runCtxAt agents ctx (runPipeline agents ctx).1.length := by
  induction agents generalizing ctx with
  | nil => exact ⟨by simp [runPipeline], by simp [runPipeline],
      by simp [runPipeline], by simp [runPipeline], by simp [runPipeline, runCtxAt]⟩
  | cons a rest ih =>
      by_cases hr : (a ctx).success
      · have hrun : runPipeline (a :: rest) ctx
            = ((a ctx) :: (runPipeline rest (applyAgentResult ctx ((a ctx).data))).1,
               (runPipeline rest (applyAgentResult ctx ((a ctx).data))).2) := by
          simp [runPipeline, hr]
        obtain ⟨ih1, ih2, ih3, ih4, ih5⟩ := ih (applyAgentResult ctx ((a ctx).data))
        refine ⟨?_, ?_, ?_, ?_, ?_⟩
        · simp only [hrun, List.length_cons]; omega
        · intro i hi
          cases i with
          | zero => simp [hrun, runCtxAt]
          | succ i =>
              simp only [hrun, List.length_cons] at hi
              simp only [hrun, List.getElem?_cons_succ]
              rw [runCtxAt_cons]
              exact ih2 i (by omega)
        · intro i hi
          cases i with
          | zero => exact ⟨a ctx, by simp [hrun], hr⟩
          | succ i =>
              simp only [hrun, List.length_cons] at hi
              obtain ⟨r, h1, h2⟩ := ih3 i (by omega)
              exact ⟨r, by simp only [hrun, List.getElem?_cons_succ]; exact h1, h2⟩
        · intro hlt
          simp only [hrun, List.length_cons] at hlt ⊢
          obtain ⟨r, h1, h2⟩ := ih4 (by omega)
          have hL : 1 ≤ (runPipeline rest (applyAgentResult ctx ((a ctx).data))).1.length := by
            rcases hn : (runPipeline rest (applyAgentResult ctx ((a ctx).data))).1 with _ | ⟨x, xs⟩
            · rw [hn] at h1; simp at h1
            · simp [hn]
          refine ⟨r, ?_, h2⟩
          have he : (runPipeline rest (applyAgentResult ctx ((a ctx).data))).1.length + 1 - 1
              = ((runPipeline rest (applyAgentResult ctx ((a ctx).data))).1.length - 1) + 1 := by
            omega
          rw [he, List.getElem?_cons_succ]
          exact h1
        · simp only [hrun, List.length_cons]
          rw [runCtxAt_cons]
          exact ih5
      · have hrun : runPipeline (a :: rest) ctx
            = ([a ctx], applyAgentResult ctx ((a ctx).data)) := by
          simp [runPipeline, hr]
        refine ⟨by simp [hrun], ?_, by simp [hrun], ?_, ?_⟩
        · intro i hi
          simp only [hrun, List.length_singleton] at hi
          have hi0 : i = 0 := by omega
          subst hi0
          simp [hrun, runCtxAt]
        · intro _
          exact ⟨a ctx, by simp [hrun], by simpa using hr⟩
        · simp [hrun, runCtxAt, List.take_succ_cons]

/-- Witness for C1 at the seven stage agents and an empty context: the run
stops early and its last (here: first) result is the failing one. -/
theorem c1_orchestrator_witness :
    ∃ r, (runPipeline stageAgents ⟨"REFERRAL_RECEIVED", [], [], [], []⟩).1[
        (runPipeline stageAgents ⟨"REFERRAL_RECEIVED", [], [], [], []⟩).1.length - 1]?
        = some r ∧ r.success = false :=
  (c1_orchestrator stageAgents ⟨"REFERRAL_RECEIVED", [], [], [], []⟩).2.2.2.1
    (by decide)

/-- The state field an agent reports: its successor stage on success, its own
stage on failure. -/
def StateStep (own next : Nat) (run : Ctx → AgentResult) : Prop :=
  ∀ c, (run c).data.state = if (run c).success then stateStr next else stateStr own

lemma stateStep_referral : StateStep 0 1 referralReceivedRun := fun _ => rfl

lemma stateStep_intake : StateStep 1 2 intakeCompleteRun := fun _ => rfl

lemma stateStep_assessment : StateStep 2 3 assessmentCompleteRun := fun _ => rfl

lemma stateStep_eligibility : StateStep 3 4 eligibilityVerifiedRun := fun _ => rfl

lemma stateStep_authPending : StateStep 4 5 authPendingRun := by
  intro c
  simp only [authPendingRun]
  split <;> rfl

lemma stateStep_authApproved : StateStep 5 6 authApprovedRun := by
  intro c
  simp only [authApprovedRun]
  split <;> rfl

lemma stateStep_readyToSchedule : StateStep 6 6 readyToScheduleRun := by
  intro c
  show stateStr 6 = if (readyToScheduleRun c).success then stateStr 6 else stateStr 6
  rw [ite_self]

lemma stateStr_ne_empty {i : Nat} (h : i ≤ 6) : stateStr i ≠ "" := by
  interval_cases i <;> decide

lemma stateIdx_stateStr {i : Nat} (h : i ≤ 6) : stateIdx (stateStr i) = i := by
  interval_cases i <;> decide

lemma applyAgentResult_state (ctx : Ctx) (d : AgentData) :
    (applyAgentResult ctx d).state = if d.state ≠ "" then d.state else ctx.state := rfl

/-- A pipeline whose agents report chained stage indices, all within the
seven-stage ordering. -/
inductive StateScript : Nat → List (Ctx → AgentResult) → Prop where
  | nil : ∀ i, StateScript i []
  | cons : ∀ (i j : Nat) (a : Ctx → AgentResult) (l : List (Ctx → AgentResult)),
      i ≤ j → j ≤ 6 → StateStep i j a → StateScript j l → StateScript i (a :: l)

lemma stateScript_chain (l : List (Ctx → AgentResult)) :
    ∀ (i : Nat) (ctx : Ctx), StateScript i l → i ≤ 6 → ctx.state = stateStr i →
    List.Chain' (· ≤ ·) ((ctx :: pipelineCtxs l ctx).map (fun c => stateIdx c.state)) := by
  induction l with
  | nil =>
      intro i ctx _ _ _
      simp [pipelineCtxs]
  | cons a rest ih =>
      intro i ctx hs hi hst
      cases hs with
      | cons _ j _ _ hij hj hstep htail =>
          by_cases hr : (a ctx).success
          · have h1 : (a ctx).data.state = stateStr j := by
              rw [hstep ctx, if_pos hr]
            have h2 : (applyAgentResult ctx ((a ctx).data)).state = stateStr j := by
              rw [applyAgentResult_state, h1, if_pos (stateStr_ne_empty hj)]
            have hpc : pipelineCtxs (a :: rest) ctx
                = applyAgentResult ctx ((a ctx).data)
                  :: pipelineCtxs rest (applyAgentResult ctx ((a ctx).data)) := by
              simp [pipelineCtxs, hr]
            rw [hpc, List.map_cons, List.map_cons, List.chain'_cons]
            refine ⟨?_, ?_⟩
            · rw [hst, h2, stateIdx_stateStr hi, stateIdx_stateStr hj]
              exact hij
            · simpa using ih j (applyAgentResult ctx ((a ctx).data)) htail hj h2
          · have h1 : (a ctx).data.state = stateStr i := by
              rw [hstep ctx, if_neg hr]
            have h2 : (applyAgentResult ctx ((a ctx).data)).state = stateStr i := by
              rw [applyAgentResult_state, h1, if_pos (stateStr_ne_empty hi)]
            have hpc : pipelineCtxs (a :: rest) ctx
                = [applyAgentResult ctx ((a ctx).data)] := by
              simp [pipelineCtxs, hr]
            rw [hpc, List.map_cons, List.map_cons, List.chain'_cons]
            refine ⟨?_, by simp⟩
            rw [hst, h2]

/-- The seven stage agents report chained stage indices `0 ≤ 1 ≤ ⋯ ≤ 6`. -/
lemma stateScript_stageAgents : StateScript 0 stageAgents := by
  refine StateScript.cons 0 1 _ _ (by omega) (by omega) stateStep_referral ?_
  refine StateScript.cons 1 2 _ _ (by omega) (by omega) stateStep_intake ?_
  refine StateScript.cons 2 3 _ _ (by omega) (by omega) stateStep_assessment ?_
  refine StateScript.cons 3 4 _ _ (by omega) (by omega) stateStep_eligibility ?_
  refine StateScript.cons 4 5 _ _ (by omega) (by omega) stateStep_authPending ?_
  refine StateScript.cons 5 6 _ _ (by omega) (by omega) stateStep_authApproved ?_
  refine StateScript.cons 6 6 _ _ (by omega) (by omega) stateStep_readyToSchedule ?_
  exact StateScript.nil 6

/-- C2. Over one orchestration run of the stage-agent sequence (every run in
the source starts at `REFERRAL_RECEIVED`), the pipeline-state index is
monotone along the pre-run context and every intermediate post-merge context:
an agent's success advances the state by one stage, its failure re-asserts the
agent's own stage, never an earlier one. -/
theorem c2_state_monotone (ctx : Ctx) (h : ctx.state = "REFERRAL_RECEIVED") :
    List.Chain' (· ≤ ·)
      ((ctx :: pipelineCtxs stageAgents ctx).map (fun c => stateIdx c.state)) :=
  stateScript_chain stageAgents 0 ctx stateScript_stageAgents (by omega) h

/-- Witness for C2 at a concrete empty context. -/
theorem c2_state_monotone_witness :
    List.Chain' (· ≤ ·)
      ((⟨"REFERRAL_RECEIVED", [], [], [], []⟩
        :: pipelineCtxs stageAgents ⟨"REFERRAL_RECEIVED", [], [], [], []⟩).map
          (fun c => stateIdx c.state)) :=
  c2_state_monotone ⟨"REFERRAL_RECEIVED", [], [], [], []⟩ rfl

/-- C9. When the extracted fields carry neither a member id (member_id /
insurance_id) nor a patient name (patient_name / name) together with a date of
birth (dob / date_of_birth), `ReferralReceivedAgent` fails with exactly the
issue `"Need patient_name+dob OR member_id to open case"`, and applying its
result leaves the context state at `REFERRAL_RECEIVED`. -/
theorem c9_referral_received_blocks (ctx : Ctx)
    (hmid : truthy (pyOr (getJ ctx.fields "member_id")
      (getJ ctx.fields "insurance_id")) = false)
    (hpd : (truthy (pyOr (getJ ctx.fields "patient_name") (getJ ctx.fields "name"))
        && truthy (pyOr (getJ ctx.fields "dob") (getJ ctx.fields "date_of_birth")))
        = false)
    (hst : ctx.state = "REFERRAL_RECEIVED") :
    (referralReceivedRun ctx).success = false
    ∧ (referralReceivedRun ctx).issues
        = ["Need patient_name+dob OR member_id to open case"]
    ∧ (applyAgentResult ctx (referralReceivedRun ctx).data).state
        = "REFERRAL_RECEIVED" := by
  refine ⟨?_, ?_, ?_⟩
  · simp [referralReceivedRun, hpd, hmid]
  · simp [referralReceivedRun, hpd, hmid]
  · rw [applyAgentResult_state]
    have hd : (referralReceivedRun ctx).data.state = "REFERRAL_RECEIVED" := by
      simp [referralReceivedRun, hpd, hmid, stateStr, pipelineOrder]
    rw [hd]
    simp

/-- Witness for C9: a context with empty extraction fields. -/
theorem c9_referral_received_blocks_witness :
    (referralReceivedRun ⟨"REFERRAL_RECEIVED", [], [], [], []⟩).success = false
    ∧ (referralReceivedRun ⟨"REFERRAL_RECEIVED", [], [], [], []⟩).issues
        = ["Need patient_name+dob OR member_id to open case"]
    ∧ (applyAgentResult ⟨"REFERRAL_RECEIVED", [], [], [], []⟩
        (referralReceivedRun ⟨"REFERRAL_RECEIVED", [], [], [], []⟩).data).state
        = "REFERRAL_RECEIVED" :=
  c9_referral_received_blocks ⟨"REFERRAL_RECEIVED", [], [], [], []⟩ rfl rfl rfl

/-! ## Journey event log and autopilot (`app.py`)

Timestamps are integers (seconds); the source stores ISO strings produced by
`datetime.utcnow().isoformat()` and only compares elapsed `total_seconds()`
against thresholds, so the affine structure is all that is observable.  The
file-mode JSON stores are association lists passed in and returned. -/

/-- One journey event (`{"stage", "at", "source", "note"}`). -/
structure JEvent where
  stage : String
  «at» : Int
  source : String
  note : String
deriving DecidableEq

/-- A case's journey entry (`{"events": [...], "current_stage", "updated_at"}`).
A fresh entry starts as `{"events": []}`; both pointer fields are assigned
before the entry is ever saved. -/
structure JEntry where
  events : List JEvent := []
  current_stage : String := ""
  updated_at : Int := 0
deriving DecidableEq

/-- The journey-overrides store, keyed by referral id. -/
abbrev JStore := List (String × JEntry)

def lookupEntry : JStore → String → Option JEntry
  | [], _ => none
  | (k, e) :: rest, rid => if k = rid then some e else lookupEntry rest rid

def setEntry : JStore → String → JEntry → JStore
  | [], rid, e => [(rid, e)]
  | (k, e') :: rest, rid, e =>
      if k = rid then (k, e) :: rest else (k, e') :: setEntry rest rid e

/-- `overrides.get(rid)` with the source's `{"events": []}` default for a
missing (or non-dict) entry. -/
def entryOf (s : JStore) (rid : String) : JEntry := (lookupEntry s rid).getD {}

/-- Stage normalisation used throughout: `str(x or "").strip().upper()`. -/
def normStage (s : String) : String := pyUpper (pyStrip s)

/-- `_record_journey_event` (`app.py` lines 262–297): no-op on a blank id or
stage; if the (normalised) stage is already present only the
`current_stage`/`updated_at` pointer moves; otherwise exactly one event is
appended and the pointer moves to it. -/
def recordJourneyEvent (store : JStore) (rid stage src note : String) (now : Int) :
    JStore :=
  let rid := (pyStrip rid)
  let st := normStage stage
  if rid = "" ∨ st = "" then store
  else
    let entry := entryOf store rid
    let events := entry.events
    if events.any (fun ev => normStage ev.stage == st) then
      setEntry store rid { entry with current_stage := st, updated_at := now }
    else
      setEntry store rid
        { events := events ++ [⟨st, now, src, (pyStrip note)⟩],
          current_stage := st, updated_at := now }

lemma normStage_idem (s : String) : normStage (normStage s) = normStage s := by
  unfold normStage
  rw [pyStrip_pyUpper_pyStrip, pyUpper_idem]

lemma lookupEntry_setEntry_self (s : JStore) (rid : String) (e : JEntry) :
    lookupEntry (setEntry s rid e) rid = some e := by
  induction s with
  | nil => simp [setEntry, lookupEntry]
  | cons hd tl ih =>
      obtain ⟨k0, e0⟩ := hd
      by_cases hk : k0 = rid
      · subst hk; simp [setEntry, lookupEntry]
      · simp [setEntry, lookupEntry, hk, ih]

lemma lookupEntry_setEntry_ne (s : JStore) (rid rid' : String) (e : JEntry)
    (h : rid' ≠ rid) :
    lookupEntry (setEntry s rid e) rid' = lookupEntry s rid' := by
  have hne : ¬rid = rid' := fun he => h he.symm
  induction s with
  | nil => simp [setEntry, lookupEntry, hne]
  | cons hd tl ih =>
      obtain ⟨k0, e0⟩ := hd
      by_cases hk : k0 = rid
      · subst hk; simp [setEntry, lookupEntry, hne]
      · by_cases hk' : k0 = rid' <;> simp [setEntry, lookupEntry, hk, hk', ih, h]

lemma entryOf_setEntry_self (s : JStore) (rid : String) (e : JEntry) :
    entryOf (setEntry s rid e) rid = e := by
  unfold entryOf
  rw [lookupEntry_setEntry_self]
  rfl

/-- The (normalised) stages of a case's journey log. -/
def stagesOf (js : JStore) (rid : String) : List String :=
  (entryOf js rid).events.map (fun ev => normStage ev.stage)

lemma record_eq_of_blank (store : JStore) (rid stage src note : String) (now : Int)
    (h : pyStrip rid = "" ∨ normStage stage = "") :
    recordJourneyEvent store rid stage src note now = store := by
  simp only [recordJourneyEvent]
  rw [if_pos h]

lemma record_eq_present (store : JStore) (rid stage src note : String) (now : Int)
    (hg : ¬(pyStrip rid = "" ∨ normStage stage = ""))
    (hp : (entryOf store (pyStrip rid)).events.any
        (fun ev => normStage ev.stage == normStage stage) = true) :
    recordJourneyEvent store rid stage src note now
      = setEntry store (pyStrip rid)
          { entryOf store (pyStrip rid) with
            current_stage := normStage stage, updated_at := now } := by
  simp only [recordJourneyEvent]
  rw [if_neg hg, if_pos hp]

lemma record_eq_absent (store : JStore) (rid stage src note : String) (now : Int)
    (hg : ¬(pyStrip rid = "" ∨ normStage stage = ""))
    (hp : (entryOf store (pyStrip rid)).events.any
        (fun ev => normStage ev.stage == normStage stage) = false) :
    recordJourneyEvent store rid stage src note now
      = setEntry store (pyStrip rid)
          { events := (entryOf store (pyStrip rid)).events
              ++ [⟨normStage stage, now, src, pyStrip note⟩],
            current_stage := normStage stage, updated_at := now } := by
  simp only [recordJourneyEvent]
  rw [if_neg hg, if_neg (by rw [hp]; exact Bool.false_ne_true)]

lemma nodup_append_singleton {l : List String} {a : String}
    (h : l.Nodup) (ha : a ∉ l) : (l ++ [a]).Nodup := by
  rw [List.nodup_append]
  exact ⟨h, List.nodup_singleton a, by simpa [List.disjoint_singleton] using ha⟩

lemma not_mem_stages_of_any_false {events : List JEvent} {st : String}
    (hp : events.any (fun ev => normStage ev.stage == st) = false) :
    st ∉ events.map (fun ev => normStage ev.stage) := by
  intro hm
  obtain ⟨ev, hev, heq⟩ := List.mem_map.1 hm
  have := List.any_eq_false.1 hp ev hev
  rw [heq] at this
  simp at this

/-- Every case's journey log has pairwise-distinct (normalised) stages. -/
def JourneyNodup (js : JStore) : Prop := ∀ rid, (stagesOf js rid).Nodup

lemma record_preserves_nodup (store : JStore) (rid stage src note : String)
    (now : Int) (h : JourneyNodup store) :
    JourneyNodup (recordJourneyEvent store rid stage src note now) := by
  intro rid'
  by_cases hg : pyStrip rid = "" ∨ normStage stage = ""
  · rw [record_eq_of_blank _ _ _ _ _ _ hg]
    exact h rid'
  · by_cases hp : (entryOf store (pyStrip rid)).events.any
        (fun ev => normStage ev.stage == normStage stage) = true
    · rw [record_eq_present _ _ _ _ _ _ hg hp]
      by_cases he : rid' = pyStrip rid
      · subst he
        unfold stagesOf
        rw [entryOf_setEntry_self]
        exact h (pyStrip rid)
      · unfold stagesOf entryOf
        rw [lookupEntry_setEntry_ne _ _ _ _ he]
        exact h rid'
    · rw [record_eq_absent _ _ _ _ _ _ hg (by simpa using hp)]
      by_cases he : rid' = pyStrip rid
      · subst he
        unfold stagesOf
        rw [entryOf_setEntry_self]
        show (((entryOf store (pyStrip rid)).events
            ++ [JEvent.mk (normStage stage) now src (pyStrip note)]).map
              (fun ev => normStage ev.stage)).Nodup
        rw [List.map_append]
        simp only [List.map_cons, List.map_nil]
        rw [normStage_idem]
        exact nodup_append_singleton (h (pyStrip rid))
          (not_mem_stages_of_any_false (by simpa using hp))
      · unfold stagesOf entryOf
        rw [lookupEntry_setEntry_ne _ _ _ _ he]
        exact h rid'

/-- C3. `_record_journey_event`: re-recording a stage already in the log keeps
the event list unchanged and only moves the `current_stage`/`updated_at`
pointer; recording a new stage appends exactly one event; entries of other
cases are untouched; and the at-most-once stage invariant is preserved. -/
theorem c3_journey_stage_dedup (store : JStore) (rid stage src note : String)
    (now : Int) (hr : pyStrip rid ≠ "") (hsn : normStage stage ≠ "") :
    ((entryOf store (pyStrip rid)).events.any
        (fun ev => normStage ev.stage == normStage stage) = true →
      (entryOf (recordJourneyEvent store rid stage src note now)
          (pyStrip rid)).events = (entryOf store (pyStrip rid)).events
      ∧ (entryOf (recordJourneyEvent store rid stage src note now)
          (pyStrip rid)).current_stage = normStage stage
      ∧ (entryOf (recordJourneyEvent store rid stage src note now)
          (pyStrip rid)).updated_at = now)
    ∧ ((entryOf store (pyStrip rid)).events.any
        (fun ev => normStage ev.stage == normStage stage) = false →
      (entryOf (recordJourneyEvent store rid stage src note now)
          (pyStrip rid)).events
        = (entryOf store (pyStrip rid)).events
          ++ [⟨normStage stage, now, src, pyStrip note⟩])
    ∧ (∀ rid', rid' ≠ pyStrip rid →
        lookupEntry (recordJourneyEvent store rid stage src note now) rid'
          = lookupEntry store rid')
    ∧ ((stagesOf store (pyStrip rid)).Nodup →
        (stagesOf (recordJourneyEvent store rid stage src note now)
          (pyStrip rid)).Nodup) := by
  have hg : ¬(pyStrip rid = "" ∨ normStage stage = "") := by
    simp [hr, hsn]
  refine ⟨?_, ?_, ?_, ?_⟩
  · intro hp
    rw [record_eq_present _ _ _ _ _ _ hg hp, entryOf_setEntry_self]
    exact ⟨rfl, rfl, rfl⟩
  · intro hp
    rw [record_eq_absent _ _ _ _ _ _ hg hp, entryOf_setEntry_self]
  · intro rid' hne
    by_cases hp : (entryOf store (pyStrip rid)).events.any
        (fun ev => normStage ev.stage == normStage stage) = true
    · rw [record_eq_present _ _ _ _ _ _ hg hp,
        lookupEntry_setEntry_ne _ _ _ _ hne]
    · rw [record_eq_absent _ _ _ _ _ _ hg (by simpa using hp),
        lookupEntry_setEntry_ne _ _ _ _ hne]
  · intro hnd
    by_cases hp : (entryOf store (pyStrip rid)).events.any
        (fun ev => normStage ev.stage == normStage stage) = true
    · rw [record_eq_present _ _ _ _ _ _ hg hp]
      unfold stagesOf
      rw [entryOf_setEntry_self]
      exact hnd
    · rw [record_eq_absent _ _ _ _ _ _ hg (by simpa using hp)]
      unfold stagesOf
      rw [entryOf_setEntry_self]
      show (((entryOf store (pyStrip rid)).events
          ++ [JEvent.mk (normStage stage) now src (pyStrip note)]).map
            (fun ev => normStage ev.stage)).Nodup
      rw [List.map_append]
      simp only [List.map_cons, List.map_nil]
      rw [normStage_idem]
      exact nodup_append_singleton hnd
        (not_mem_stages_of_any_false (by simpa using hp))

/-- Witness for C3: recording a fresh stage on an empty store appends exactly
one event. -/
theorem c3_journey_stage_dedup_witness :
    (entryOf (recordJourneyEvent [] "R1" "INTAKE_RECEIVED" "autopilot" "" 0)
        (pyStrip "R1")).events
      = (entryOf ([] : JStore) (pyStrip "R1")).events
        ++ [⟨normStage "INTAKE_RECEIVED", 0, "autopilot", pyStrip ""⟩] :=
  (c3_journey_stage_dedup [] "R1" "INTAKE_RECEIVED" "autopilot" "" 0
    (by decide) (by decide)).2.1 (by decide)

/-- A caregiver CSV row (string fields, as loaded from file mode). -/
structure Caregiver where
  caregiver_id : String := ""
  city : String := ""
  skills : String := ""
  availability : String := ""
  employment_type : String := ""
  active : String := ""
  primary_language : String := ""
deriving DecidableEq

/-- A referral row.  String fields carry the raw CSV values; the two date
fields model the result of `_safe_date` (day number, `none` when missing or
unparseable) and the two numeric fields the result of `_safe_int` (0 on
failure), because only those parsed values are ever consumed. -/
structure Referral where
  referral_id : String := ""
  intake_source : String := ""
  agent_rationale : String := ""
  service_complete : String := ""
  docs_complete : String := ""
  insurance_active : String := ""
  auth_required : String := ""
  auth_status : String := ""
  schedule_status : String := ""
  home_assessment_done : String := ""
  patient_city : String := ""
  use_case : String := ""
  urgency : String := ""
  agent_segment : String := ""
  referral_received_date : Option Int := none
  auth_end_date : Option Int := none
  contact_attempts : Int := 0
  auth_units_remaining : Int := 0
deriving DecidableEq

/-- Python's substring test `needle in hay` (true for the empty needle). -/
def strContains (hay needle : String) : Bool :=
  hay.toList.tails.any (fun t => needle.toList.isPrefixOf t)

/-- A scheduling override (`scheduling_overrides` entry). -/
structure SchedOverride where
  schedule_status : String := ""
  scheduled_date : Int := 0
  assigned_caregiver_id : String := ""
  updated_at : Int := 0
deriving DecidableEq

abbrev SchedStore := List (String × SchedOverride)

def setSched : SchedStore → String → SchedOverride → SchedStore
  | [], rid, o => [(rid, o)]
  | (k, o') :: rest, rid, o =>
      if k = rid then (k, o) :: rest else (k, o') :: setSched rest rid o

/-- `ref_by_id` dict comprehension: keyed by `referral_id`, later rows
overwrite earlier ones. -/
def refById (refs : List Referral) (rid : String) : Option Referral :=
  refs.reverse.find? (fun r => r.referral_id == rid)

/-- `_compute_caregiver_load` restricted to one caregiver id: the number of
assignment entries that are SCHEDULED, carry that caregiver, and belong to a
known, not-service-complete referral (`load.get(cg, 0)`). -/
def loadOf (assignments : SchedStore) (refs : List Referral) (cg : String) : Nat :=
  (assignments.filter (fun p =>
    (pyStrip p.2.assigned_caregiver_id) ≠ ""
    && (pyStrip p.2.assigned_caregiver_id) == cg
    && pyUpper (pyStrip p.2.schedule_status) == "SCHEDULED"
    && (match refById refs p.1 with
        | some r => pyUpper (pyStrip r.service_complete) ≠ "Y"
        | none => false))).length

/-- `_caregiver_capacity`: part-time 1, contract 2, else 3; minus one
(floor 1) for "limited" availability. -/
def caregiverCapacity (c : Caregiver) : Int :=
  let et := pyLowerStr (pyStrip c.employment_type)
  let av := pyLowerStr (pyStrip c.availability)
  let base : Int := if strContains et "part" then 1
                    else if strContains et "contract" then 2 else 3
  if strContains av "limited" then max 1 (base - 1) else base

/-- `_select_available_caregiver`: first active caregiver with spare capacity
in the patient's city, else the first anywhere, else none. -/
def selectAvailableCaregiver (r : Referral) (cgs : List Caregiver)
    (assignments : SchedStore) (refs : List Referral) : Option String :=
  let city := (pyStrip r.patient_city)
  let ok := fun (c : Caregiver) =>
    pyUpper (pyStrip c.active) == "Y"
    && (pyStrip c.caregiver_id) ≠ ""
    && ((loadOf assignments refs (pyStrip c.caregiver_id) : Int) < caregiverCapacity c)
  match cgs.filter (fun c => ok c && (pyStrip c.city) == city) with
  | c :: _ => some c.caregiver_id
  | [] =>
    match cgs.filter ok with
    | c :: _ => some c.caregiver_id
    | [] => none

/-- `_autopilot_should_run`: explicit PDF/SIMULATED intake source, or legacy
rationale markers. -/
def autopilotShouldRun (r : Referral) : Bool :=
  let src := pyUpper (pyStrip r.intake_source)
  if src == "PDF" || src == "SIMULATED" then true
  else
    let rationale := pyLowerStr r.agent_rationale
    strContains rationale "ingested from pdf" || strContains rationale "demo"

def AUTOPILOT_ENABLED : Bool := true
def AUTOPILOT_HOME_ASSESSMENT_DELAY_SEC : Int := 25
def AUTOPILOT_READY_TO_BILL_DELAY_SEC : Int := 25
def AUTOPILOT_COMPLETE_DELAY_SEC : Int := 25

/-- External collaborators the tick consults: DB availability, the caregiver
CSV, and the full referral list used for load computation. -/
structure TickEnv where
  dbReady : Bool := false
  caregivers : List Caregiver := []
  allRefs : List Referral := []

/-- `_autopilot_tick_for_referral`, final segment (`app.py` lines 423–444):
billing progression.  It reads one snapshot of the (possibly just-extended)
event list; `READY_TO_BILL` is searched in that same snapshot, exactly as the
source binds `events` once before both checks. -/
def tickBilling (r : Referral) (now : Int) (rid : String)
    (js : JStore) (ss : SchedStore) : JStore × SchedStore :=
  let events2 := (entryOf js rid).events
  match events2.find? (fun ev => normStage ev.stage == "SCHEDULED") with
  | some sev =>
      if pyUpper (pyStrip r.schedule_status) == "SCHEDULED" then
        let js := if now - sev.«at» ≥ AUTOPILOT_READY_TO_BILL_DELAY_SEC then
            recordJourneyEvent js rid "READY_TO_BILL" "autopilot" "" now
          else js
        match events2.find? (fun ev => normStage ev.stage == "READY_TO_BILL") with
        | some rb =>
            if now - rb.«at» ≥ AUTOPILOT_COMPLETE_DELAY_SEC then
              (recordJourneyEvent js rid "SERVICE_COMPLETED" "autopilot" "" now, ss)
            else (js, ss)
        | none => (js, ss)
      else (js, ss)
  | none => (js, ss)

/-- `_autopilot_tick_for_referral`, middle segment (`app.py` lines 370–422):
home-assessment scheduling/completion and file-mode auto-scheduling.
(`insurance_ok` is recomputed here; it is the same pure comparison the source
computed once before the authorization guard.) -/
def tickAssessSchedule (env : TickEnv) (r : Referral) (now today : Int)
    (rid : String) (js : JStore) (ss : SchedStore) : JStore × SchedStore :=
  let events := (entryOf js rid).events
  let hasStage := fun (st : String) => events.find? (fun ev => normStage ev.stage == st)
  if (hasStage "HOME_ASSESSMENT_SCHEDULED").isNone then
    (recordJourneyEvent js rid "HOME_ASSESSMENT_SCHEDULED" "autopilot" "" now, ss)
  else
  let js := if pyUpper (pyStrip r.home_assessment_done) != "Y" then
      match hasStage "HOME_ASSESSMENT_SCHEDULED" with
      | some ev =>
          if now - ev.«at» ≥ AUTOPILOT_HOME_ASSESSMENT_DELAY_SEC then
            recordJourneyEvent js rid "HOME_ASSESSMENT_COMPLETED" "autopilot" "" now
          else js
      | none => js
    else js
  let insurance_ok := pyUpper (pyStrip r.insurance_active) == "Y"
  let sched :=
    if pyUpper (pyStrip r.schedule_status) == "NOT_SCHEDULED" && insurance_ok
       && !env.dbReady then
      match selectAvailableCaregiver r env.caregivers ss env.allRefs with
      | some cg =>
          (recordJourneyEvent js rid "SCHEDULED" "autopilot"
            ("Auto-scheduled with " ++ cg) now,
           setSched ss rid ⟨"SCHEDULED", today, cg, now⟩)
      | none => (js, ss)
    else (js, ss)
  tickBilling r now rid sched.1 sched.2

/-- `_autopilot_tick_for_referral` (`app.py` lines 340–445), file mode: the
journey and scheduling stores are threaded explicitly; `now` is
`datetime.utcnow()` and `today` is `date.today()`. -/
def tick (env : TickEnv) (r : Referral) (now today : Int)
    (js : JStore) (ss : SchedStore) : JStore × SchedStore :=
  if !AUTOPILOT_ENABLED then (js, ss) else
  let rid := (pyStrip r.referral_id)
  if rid = "" then (js, ss) else
  if !autopilotShouldRun r then (js, ss) else
  if pyUpper (pyStrip r.service_complete) == "Y" then
    (recordJourneyEvent js rid "SERVICE_COMPLETED" "autopilot" "" now, ss)
  else
  let js := recordJourneyEvent js rid "INTAKE_RECEIVED" "autopilot" "" now
  let js := if pyUpper (pyStrip r.docs_complete) != "Y" then
      recordJourneyEvent js rid "DOCS_COMPLETED" "autopilot" "Docs inferred from intake" now
    else js
  let insurance_ok := pyUpper (pyStrip r.insurance_active) == "Y"
  let auth_required := pyUpper (pyStrip r.auth_required) == "Y"
  let auth_status := pyUpper (pyStrip r.auth_status)
  if insurance_ok && auth_required && auth_status != "APPROVED" then
    (recordJourneyEvent js rid "AUTH_PENDING" "autopilot" "" now, ss)
  else
  tickAssessSchedule env r now today rid js ss

/-- Does the case's journey log carry this (normalised) stage? -/
def stageAny (js : JStore) (rid st : String) : Bool :=
  (entryOf js rid).events.any (fun ev => normStage ev.stage == st)

lemma stageAny_record_self (store : JStore) (rid stage src note : String)
    (now : Int) (hg : ¬(pyStrip rid = "" ∨ normStage stage = "")) :
    stageAny (recordJourneyEvent store rid stage src note now)
      (pyStrip rid) (normStage stage) = true := by
  by_cases hp : (entryOf store (pyStrip rid)).events.any
      (fun ev => normStage ev.stage == normStage stage) = true
  · rw [record_eq_present _ _ _ _ _ _ hg hp]
    unfold stageAny
    rw [entryOf_setEntry_self]
    exact hp
  · rw [record_eq_absent _ _ _ _ _ _ hg (by simpa using hp)]
    unfold stageAny
    rw [entryOf_setEntry_self]
    simp [List.any_append, normStage_idem]

lemma stageAny_record_other (store : JStore) (rid stage src note : String)
    (now : Int) (rid' st : String) (hst : st ≠ normStage stage) :
    stageAny (recordJourneyEvent store rid stage src note now) rid' st
      = stageAny store rid' st := by
  by_cases hg : pyStrip rid = "" ∨ normStage stage = ""
  · rw [record_eq_of_blank _ _ _ _ _ _ hg]
  · by_cases he : rid' = pyStrip rid
    · subst he
      by_cases hp : (entryOf store (pyStrip rid)).events.any
          (fun ev => normStage ev.stage == normStage stage) = true
      · rw [record_eq_present _ _ _ _ _ _ hg hp]
        unfold stageAny
        rw [entryOf_setEntry_self]
      · rw [record_eq_absent _ _ _ _ _ _ hg (by simpa using hp)]
        unfold stageAny
        rw [entryOf_setEntry_self]
        simp [List.any_append, normStage_idem]
        intro hc
        exact absurd hc.symm hst
    · by_cases hp : (entryOf store (pyStrip rid)).events.any
          (fun ev => normStage ev.stage == normStage stage) = true
      · rw [record_eq_present _ _ _ _ _ _ hg hp]
        unfold stageAny entryOf
        rw [lookupEntry_setEntry_ne _ _ _ _ he]
      · rw [record_eq_absent _ _ _ _ _ _ hg (by simpa using hp)]
        unfold stageAny entryOf
        rw [lookupEntry_setEntry_ne _ _ _ _ he]

/-- `_priority_score` (`app.py` lines 1934–1966). -/
def priorityScore (r : Referral) (today : Int) : Int :=
  let score : Int := 0
  let urgency := pyLowerStr (pyStrip r.urgency)
  let segment := pyUpper (pyStrip r.agent_segment)
  let score := if urgency == "urgent" then score + 100 else score
  let score := if segment == "RED" then score + 50
               else if segment == "ORANGE" then score + 25 else score
  let score := match r.referral_received_date with
    | some received => score + min (max 0 (today - received)) 30
    | none => score
  let score := match r.auth_end_date with
    | some auth_end =>
        let days_left := auth_end - today
        if days_left ≤ 3 then score + 40
        else if days_left ≤ 7 then score + 20 else score
    | none => score
  let score := if r.contact_attempts ≥ 3 then score + 10 else score
  if r.auth_units_remaining ≤ 2 && r.auth_units_remaining > 0 then score + 10
  else score

/-! ## Autopilot theorems (C6, C7) -/

/-- Concrete demo data shared by the autopilot theorems. -/
def sampleCaregiver : Caregiver :=
  { caregiver_id := "CG1", city := "X", availability := "Flexible",
    employment_type := "full_time", active := "Y" }

def sampleReferral : Referral :=
  { referral_id := "R1", intake_source := "PDF", insurance_active := "Y",
    auth_required := "N", schedule_status := "NOT_SCHEDULED", patient_city := "X" }

def sampleEnv : TickEnv :=
  { caregivers := [sampleCaregiver], allRefs := [sampleReferral] }

/-- A case eligible for autopilot whose insurance is inactive while
authorization is required and still pending. -/
def sampleReferralNoIns : Referral :=
  { referral_id := "R2", intake_source := "PDF", insurance_active := "N",
    auth_required := "Y", auth_status := "PENDING",
    schedule_status := "NOT_SCHEDULED" }

/-- C7 (corrected). When additionally the insurance is active (`insurance_ok`
is part of the source's guard), a tick on an eligible, not-yet-complete case
with authorization required and unapproved records `AUTH_PENDING` and stops:
the scheduling store is untouched and none of the later journey stages is
newly recorded. -/
theorem c7_auth_pending_halts (env : TickEnv) (r : Referral) (now today : Int)
    (js : JStore) (ss : SchedStore)
    (hrid : pyStrip r.referral_id ≠ "")
    (helig : autopilotShouldRun r = true)
    (hsc : pyUpper (pyStrip r.service_complete) ≠ "Y")
    (hins : pyUpper (pyStrip r.insurance_active) = "Y")
    (hreq : pyUpper (pyStrip r.auth_required) = "Y")
    (hsts : pyUpper (pyStrip r.auth_status) ≠ "APPROVED") :
    (tick env r now today js ss).2 = ss
    ∧ stageAny (tick env r now today js ss).1 (pyStrip r.referral_id)
        "AUTH_PENDING" = true
    ∧ ∀ st ∈ (["HOME_ASSESSMENT_SCHEDULED", "HOME_ASSESSMENT_COMPLETED",
        "SCHEDULED", "READY_TO_BILL", "SERVICE_COMPLETED"] : List String),
        stageAny (tick env r now today js ss).1 (pyStrip r.referral_id) st
          = stageAny js (pyStrip r.referral_id) st := by
  have htick : tick env r now today js ss
      = (recordJourneyEvent
          (if pyUpper (pyStrip r.docs_complete) != "Y" then
            recordJourneyEvent
              (recordJourneyEvent js (pyStrip r.referral_id)
                "INTAKE_RECEIVED" "autopilot" "" now)
              (pyStrip r.referral_id) "DOCS_COMPLETED" "autopilot"
              "Docs inferred from intake" now
          else
            recordJourneyEvent js (pyStrip r.referral_id)
              "INTAKE_RECEIVED" "autopilot" "" now)
          (pyStrip r.referral_id) "AUTH_PENDING" "autopilot" "" now, ss) := by
    simp only [tick]
    rw [if_neg (by decide), if_neg hrid, if_neg (by simp [helig]),
      if_neg (by simp [hsc]), if_pos (by simp [hins, hreq, hsts])]
  refine ⟨by rw [htick], ?_, ?_⟩
  · have hg2 : ¬(pyStrip (pyStrip r.referral_id) = ""
        ∨ normStage "AUTH_PENDING" = "") := by
      rw [pyStrip_idem]
      exact not_or.2 ⟨hrid, by decide⟩
    rw [htick]
    have hself := stageAny_record_self
      (if pyUpper (pyStrip r.docs_complete) != "Y" then
        recordJourneyEvent
          (recordJourneyEvent js (pyStrip r.referral_id)
            "INTAKE_RECEIVED" "autopilot" "" now)
          (pyStrip r.referral_id) "DOCS_COMPLETED" "autopilot"
          "Docs inferred from intake" now
      else
        recordJourneyEvent js (pyStrip r.referral_id)
          "INTAKE_RECEIVED" "autopilot" "" now)
      (pyStrip r.referral_id) "AUTH_PENDING" "autopilot" "" now hg2
    rw [pyStrip_idem,
      show normStage "AUTH_PENDING" = "AUTH_PENDING" from by decide] at hself
    exact hself
  · have hstep : ∀ st : String, st ≠ "AUTH_PENDING" → st ≠ "DOCS_COMPLETED" →
        st ≠ "INTAKE_RECEIVED" →
        stageAny (tick env r now today js ss).1 (pyStrip r.referral_id) st
          = stageAny js (pyStrip r.referral_id) st := by
      intro st h1 h2 h3
      rw [htick]
      rw [stageAny_record_other _ _ _ _ _ _ _ _
        (by rw [show normStage "AUTH_PENDING" = "AUTH_PENDING" from by decide]
            exact h1)]
      by_cases hdoc : (pyUpper (pyStrip r.docs_complete) != "Y") = true
      · rw [if_pos hdoc,
          stageAny_record_other _ _ _ _ _ _ _ _
            (by rw [show normStage "DOCS_COMPLETED" = "DOCS_COMPLETED" from by decide]
                exact h2),
          stageAny_record_other _ _ _ _ _ _ _ _
            (by rw [show normStage "INTAKE_RECEIVED" = "INTAKE_RECEIVED" from by decide]
                exact h3)]
      · rw [if_neg hdoc,
          stageAny_record_other _ _ _ _ _ _ _ _
            (by rw [show normStage "INTAKE_RECEIVED" = "INTAKE_RECEIVED" from by decide]
                exact h3)]
    intro st hst
    fin_cases hst
    · exact hstep _ (by decide) (by decide) (by decide)
    · exact hstep _ (by decide) (by decide) (by decide)
    · exact hstep _ (by decide) (by decide) (by decide)
    · exact hstep _ (by decide) (by decide) (by decide)
    · exact hstep _ (by decide) (by decide) (by decide)

/-- Witness for C7 at a concrete eligible case with active insurance and
pending authorization. -/
theorem c7_auth_pending_halts_witness :
    (tick sampleEnv
      { sampleReferralNoIns with insurance_active := "Y" } 100 10 [] []).2 = []
    ∧ stageAny (tick sampleEnv
        { sampleReferralNoIns with insurance_active := "Y" } 100 10 [] []).1
        (pyStrip "R2") "AUTH_PENDING" = true :=
  ⟨(c7_auth_pending_halts sampleEnv _ 100 10 [] [] (by decide) (by decide)
      (by decide) (by decide) (by decide) (by decide)).1,
    (c7_auth_pending_halts sampleEnv _ 100 10 [] [] (by decide) (by decide)
      (by decide) (by decide) (by decide) (by decide)).2.1⟩

/-- Counterexample to C7 as stated: with authorization required and unapproved
but insurance inactive, the tick skips the `AUTH_PENDING` halt (the source's
guard also requires `insurance_ok`) and records the later stage
`HOME_ASSESSMENT_SCHEDULED`. -/
theorem c7_counterexample :
    stageAny (tick sampleEnv sampleReferralNoIns 100 10 [] []).1 "R2"
        "HOME_ASSESSMENT_SCHEDULED" = true
    ∧ stageAny (tick sampleEnv sampleReferralNoIns 100 10 [] []).1 "R2"
        "AUTH_PENDING" = false := by
  decide

/-- Counterexample to C6 as stated: on a fresh eligible case the first tick
stops at `HOME_ASSESSMENT_SCHEDULED`; the second tick (same timestamp, no
external changes) auto-schedules and appends a new `SCHEDULED` event, so the
two logs differ. -/
theorem c6_counterexample :
    (tick sampleEnv sampleReferral 100 10
        (tick sampleEnv sampleReferral 100 10 [] []).1
        (tick sampleEnv sampleReferral 100 10 [] []).2).1
      ≠ (tick sampleEnv sampleReferral 100 10 [] []).1
    ∧ stageAny (tick sampleEnv sampleReferral 100 10
        (tick sampleEnv sampleReferral 100 10 [] []).1
        (tick sampleEnv sampleReferral 100 10 [] []).2).1 "R1" "SCHEDULED" = true
    ∧ stageAny (tick sampleEnv sampleReferral 100 10 [] []).1 "R1"
        "SCHEDULED" = false := by
  decide

set_option maxHeartbeats 1000000 in
lemma tickBilling_nodup (r : Referral) (now : Int) (rid : String)
    (js : JStore) (ss : SchedStore) (h : JourneyNodup js) :
    JourneyNodup (tickBilling r now rid js ss).1 := by
  simp only [tickBilling]
  repeat' split
  all_goals try dsimp only
  all_goals repeat (first | assumption | apply record_preserves_nodup)

set_option maxHeartbeats 1000000 in
lemma tickAssessSchedule_nodup (env : TickEnv) (r : Referral) (now today : Int)
    (rid : String) (js : JStore) (ss : SchedStore) (h : JourneyNodup js) :
    JourneyNodup (tickAssessSchedule env r now today rid js ss).1 := by
  simp only [tickAssessSchedule]
  repeat' split
  all_goals try dsimp only
  all_goals repeat (first | assumption | apply record_preserves_nodup | apply tickBilling_nodup)

/-- C6 (corrected). What does hold: every tick — in particular the second of
two in succession — appends only events whose stage is not yet in the log, so
no stage is ever duplicated. -/
theorem c6_tick_no_duplicate_stages (env : TickEnv) (r : Referral)
    (now today : Int) (js : JStore) (ss : SchedStore)
    (h : JourneyNodup js) :
    JourneyNodup (tick env r now today js ss).1 := by
  simp only [tick]
  split
  · exact h
  split
  · exact h
  split
  · exact h
  split
  · exact record_preserves_nodup _ _ _ _ _ _ h
  split
  · dsimp only
    apply record_preserves_nodup
    split
    · exact record_preserves_nodup _ _ _ _ _ _ (record_preserves_nodup _ _ _ _ _ _ h)
    · exact record_preserves_nodup _ _ _ _ _ _ h
  · apply tickAssessSchedule_nodup
    split
    · exact record_preserves_nodup _ _ _ _ _ _ (record_preserves_nodup _ _ _ _ _ _ h)
    · exact record_preserves_nodup _ _ _ _ _ _ h

/-- Witness for C6's corrected theorem: two successive ticks on the sample
case never duplicate a stage. -/
theorem c6_tick_no_duplicate_stages_witness :
    JourneyNodup (tick sampleEnv sampleReferral 100 10
      (tick sampleEnv sampleReferral 100 10 [] []).1
      (tick sampleEnv sampleReferral 100 10 [] []).2).1 :=
  c6_tick_no_duplicate_stages _ _ _ _ _ _
    (c6_tick_no_duplicate_stages _ _ _ _ _ _
      (fun rid => by simp [stagesOf, entryOf, lookupEntry]))

/-! ## Scheduling priority score (C4) -/

/-- The scheduling priority formula exactly as claim C4 words it — in
particular crediting contact attempts only from **5** upwards. -/
def claimedPriorityScore (r : Referral) (today : Int) : Int :=
  (if pyLowerStr (pyStrip r.urgency) == "urgent" then 100 else 0)
  + (if pyUpper (pyStrip r.agent_segment) == "RED" then 50
     else if pyUpper (pyStrip r.agent_segment) == "ORANGE" then 25 else 0)
  + (match r.referral_received_date with
     | some received => min (max 0 (today - received)) 30
     | none => 0)
  + (match r.auth_end_date with
     | some auth_end =>
        if auth_end - today ≤ 3 then 40
        else if auth_end - today ≤ 7 then 20 else 0
     | none => 0)
  + (if r.contact_attempts ≥ 5 then 10 else 0)
  + (if r.auth_units_remaining ≤ 2 && r.auth_units_remaining > 0 then 10 else 0)

/-- The same additive reading with the source's actual contact-attempts
threshold, **≥ 3** — the amended C4. -/
def amendedPriorityScore (r : Referral) (today : Int) : Int :=
  (if pyLowerStr (pyStrip r.urgency) == "urgent" then 100 else 0)
  + (if pyUpper (pyStrip r.agent_segment) == "RED" then 50
     else if pyUpper (pyStrip r.agent_segment) == "ORANGE" then 25 else 0)
  + (match r.referral_received_date with
     | some received => min (max 0 (today - received)) 30
     | none => 0)
  + (match r.auth_end_date with
     | some auth_end =>
        if auth_end - today ≤ 3 then 40
        else if auth_end - today ≤ 7 then 20 else 0
     | none => 0)
  + (if r.contact_attempts ≥ 3 then 10 else 0)
  + (if r.auth_units_remaining ≤ 2 && r.auth_units_remaining > 0 then 10 else 0)

/-- Counterexample to C4 as stated: a case with exactly 3 contact attempts
(and nothing else set) scores 10 in the source but 0 under the claim's
"contact attempts ≥ 5" component. -/
theorem c4_counterexample :
    priorityScore { contact_attempts := 3 } 0 = 10
    ∧ claimedPriorityScore { contact_attempts := 3 } 0 = 0 := by
  decide

set_option maxHeartbeats 4000000 in
/-- C4 (corrected). `_priority_score` equals the claimed additive sum once the
contact-attempts component is amended to the source's threshold of ≥ 3; all
other components (+100 urgent, +50 RED / +25 ORANGE, waiting days capped at 30,
+40 / +20 authorization expiry, +10 low units) are as claimed. -/
theorem c4_priority_score_components (r : Referral) (today : Int) :
    priorityScore r today = amendedPriorityScore r today := by
  unfold priorityScore amendedPriorityScore
  cases r.referral_received_date <;> cases r.auth_end_date <;> dsimp only <;>
    split_ifs <;> omega

/-! ## Caregiver matching (`agent_workflow.CaregiverMatchingAgent`, C5)

The repository ships no `agent_config.yaml`, so `ConfigLoader.get_yaml` always
returns its defaults; the constants below are those defaults. -/

def city_match_points : Int := 40
def exact_skill_points : Int := 40
def general_skill_points : Int := 20
def flexible_availability_points : Int := 20
def partial_availability_points : Int := 10
def min_match_score : Int := 30
def max_matches : Nat := 5
def general_skills : List String := ["ECM", "HOME", "CARE"]

/-- One `match_details` dict. -/
structure CgMatch where
  caregiver_id : String
  caregiver_name : String
  city : String
  skills : String
  availability : String
  language : String
  match_score : Int
  match_reasons : List String
deriving DecidableEq

/-- The per-caregiver body of the `match_caregivers` loop.  Each
`match_score += … ; match_reasons.append(…)` statement pair is rendered as two
guarded updates with the same condition. -/
def matchOne (referral_city referral_service : String) (c : Caregiver) : CgMatch :=
  let score0 : Int := 0
  let reasons0 : List String := []
  let cityHit := pyStrip c.city == referral_city
  let score1 := if cityHit then score0 + city_match_points else score0
  let reasons1 := if cityHit then reasons0 ++ ["Same city: " ++ referral_city]
                  else reasons0
  let caregiver_skills := pyUpper c.skills
  let exactHit := strContains caregiver_skills (pyUpper referral_service)
  let generalHit := general_skills.any (fun sk => strContains caregiver_skills sk)
  let score2 := if exactHit then score1 + exact_skill_points
                else if generalHit then score1 + general_skill_points else score1
  let reasons2 := if exactHit then reasons1 ++ ["Has skill: " ++ referral_service]
                  else if generalHit then reasons1 ++ ["Has general home care skills"]
                  else reasons1
  let flexHit := strContains c.availability "Flexible"
                 || strContains c.availability "Full-Time"
  let score3 := if flexHit then score2 + flexible_availability_points
                else if c.availability ≠ "" then score2 + partial_availability_points
                else score2
  let reasons3 := if flexHit then reasons2 ++ ["Good availability: " ++ c.availability]
                  else reasons2
  { caregiver_id := c.caregiver_id,
    caregiver_name := "Caregiver " ++ c.caregiver_id,
    city := c.city, skills := c.skills, availability := c.availability,
    language := c.primary_language,
    match_score := score3, match_reasons := reasons3 }

/-- The loop of `match_caregivers`: skip inactive caregivers
(`caregiver.get("active") != "Y"`, no normalisation), keep those whose score
reaches the minimum (inclusive). -/
def buildMatches (referral_city referral_service : String) :
    List Caregiver → List CgMatch
  | [] => []
  | c :: rest =>
      if c.active == "Y" then
        let m := matchOne referral_city referral_service c
        if min_match_score ≤ m.match_score then
          m :: buildMatches referral_city referral_service rest
        else buildMatches referral_city referral_service rest
      else buildMatches referral_city referral_service rest

/-- Stable insertion for a descending sort: an element goes before the first
strictly-smaller score, hence after all equal scores. -/
def insertByScoreDesc {α : Type} (score : α → Int) (m : α) : List α → List α
  | [] => [m]
  | x :: xs => if score x < score m then m :: x :: xs
               else x :: insertByScoreDesc score m xs

/-- `list.sort(key=score, reverse=True)`: stable, descending (Python's sort is
stable and `reverse=True` preserves the original order of ties). -/
def sortByScoreDesc {α : Type} (score : α → Int) (l : List α) : List α :=
  l.foldl (fun acc m => insertByScoreDesc score m acc) []

/-- `CaregiverMatchingAgent.match_caregivers`. -/
def matchCaregivers (r : Referral) (cgs : List Caregiver) : List CgMatch :=
  let referral_city := pyStrip r.patient_city
  let referral_service := pyStrip r.use_case
  (sortByScoreDesc (fun m => m.match_score)
    (buildMatches referral_city referral_service cgs)).take max_matches

/-- A caregiver's score exactly as claim C5 words it: +40 same city; +40 exact
requested-service skill match (the service appearing in the skill tags), else
+20 for a generic home-care skill, else 0; +20 flexible/full-time
availability, else +10 for any other non-empty availability. -/
def specMatchScore (r : Referral) (c : Caregiver) : Int :=
  (if pyStrip c.city == pyStrip r.patient_city then 40 else 0)
  + (if strContains (pyUpper c.skills) (pyUpper (pyStrip r.use_case)) then 40
     else if general_skills.any (fun sk => strContains (pyUpper c.skills) sk) then 20
     else 0)
  + (if strContains c.availability "Flexible"
        || strContains c.availability "Full-Time" then 20
     else if c.availability ≠ "" then 10
     else 0)

/-- The ranking exactly as claim C5 words it: only active caregivers, exactly
those scoring ≥ 30 (30 included), descending by score with ties in input order
(stable), at most the top 5 returned. -/
def specMatchRanking (r : Referral) (cgs : List Caregiver) :
    List (String × Int) :=
  (sortByScoreDesc Prod.snd
    (((cgs.filter (fun c => c.active == "Y")).map
        (fun c => (c.caregiver_id, specMatchScore r c))).filter
      (fun p => 30 ≤ p.2))).take 5

lemma matchOne_caregiver_id (referral_city referral_service : String)
    (c : Caregiver) :
    (matchOne referral_city referral_service c).caregiver_id = c.caregiver_id := rfl

lemma matchOne_score (r : Referral) (c : Caregiver) :
    (matchOne (pyStrip r.patient_city) (pyStrip r.use_case) c).match_score
      = specMatchScore r c := by
  unfold matchOne specMatchScore city_match_points exact_skill_points
    general_skill_points flexible_availability_points partial_availability_points
  dsimp only
  split_ifs <;> omega

lemma insertByScoreDesc_map {α β : Type} (f : α → β) (s1 : α → Int)
    (s2 : β → Int) (hs : ∀ a, s2 (f a) = s1 a) (m : α) (l : List α) :
    (insertByScoreDesc s1 m l).map f
      = insertByScoreDesc s2 (f m) (l.map f) := by
  induction l with
  | nil => rfl
  | cons x xs ih =>
      by_cases hx : s1 x < s1 m
      · simp [insertByScoreDesc, hx, hs]
      · simp [insertByScoreDesc, hx, hs, ih]

lemma sortByScoreDesc_map_aux {α β : Type} (f : α → β) (s1 : α → Int)
    (s2 : β → Int) (hs : ∀ a, s2 (f a) = s1 a) (l : List α) :
    ∀ acc : List α,
      (l.foldl (fun acc m => insertByScoreDesc s1 m acc) acc).map f
        = (l.map f).foldl (fun acc m => insertByScoreDesc s2 m acc) (acc.map f) := by
  induction l with
  | nil => intro acc; rfl
  | cons x xs ih =>
      intro acc
      simp only [List.foldl_cons, List.map_cons]
      rw [ih, insertByScoreDesc_map f s1 s2 hs]

lemma sortByScoreDesc_map {α β : Type} (f : α → β) (s1 : α → Int)
    (s2 : β → Int) (hs : ∀ a, s2 (f a) = s1 a) (l : List α) :
    (sortByScoreDesc s1 l).map f = sortByScoreDesc s2 (l.map f) :=
  sortByScoreDesc_map_aux f s1 s2 hs l []

lemma buildMatches_map (r : Referral) (cgs : List Caregiver) :
    (buildMatches (pyStrip r.patient_city) (pyStrip r.use_case) cgs).map
        (fun m => (m.caregiver_id, m.match_score))
      = ((cgs.filter (fun c => c.active == "Y")).map
          (fun c => (c.caregiver_id, specMatchScore r c))).filter
        (fun p => 30 ≤ p.2) := by
  induction cgs with
  | nil => rfl
  | cons c rest ih =>
      by_cases hact : (c.active == "Y") = true
      · by_cases hsc : min_match_score
            ≤ (matchOne (pyStrip r.patient_city) (pyStrip r.use_case) c).match_score
        · have hspec : (30 : Int) ≤ specMatchScore r c := by
            rw [← matchOne_score]
            exact hsc
          simp [buildMatches, hact, hsc, List.filter_cons, hspec,
            matchOne_score, matchOne_caregiver_id, ih, min_match_score]
        · have hspec : ¬((30 : Int) ≤ specMatchScore r c) := by
            rw [← matchOne_score]
            exact hsc
          simp [buildMatches, hact, hsc, List.filter_cons, hspec, ih,
            min_match_score, matchOne_score]
      · simp [buildMatches, hact, List.filter_cons, ih]

/-- C5. `match_caregivers` projected to (caregiver id, score) is exactly the
claim's contract: only active caregivers are considered; each score is the
claimed additive sum; exactly the caregivers scoring ≥ 30 are kept (30
included); the result is sorted descending by score with equal scores in
original input order (stable); and at most the top 5 are returned. -/
theorem c5_match_caregivers (r : Referral) (cgs : List Caregiver) :
    (matchCaregivers r cgs).map (fun m => (m.caregiver_id, m.match_score))
      = specMatchRanking r cgs := by
  unfold matchCaregivers specMatchRanking
  rw [List.map_take,
    sortByScoreDesc_map (fun (m : CgMatch) => (m.caregiver_id, m.match_score))
      (fun (m : CgMatch) => m.match_score) Prod.snd (fun _ => rfl),
    buildMatches_map]
  rfl

/-! ## C10: the member-id fallback of `apply_agent_result` -/

lemma lookup?_updAt_ne (n : JObj) (k : String) (f : JObj → JObj) (k' : String)
    (h : k' ≠ k) : lookup? (updAt n k f) k' = lookup? n k' := by
  unfold updAt
  rcases hl : lookup? n k with _ | v
  · rfl
  · cases v
    all_goals first | rfl | exact lookup?_setKey_ne n k k' _ h

lemma updAt_obj (n : JObj) (k : String) (f : JObj → JObj) (o : JObj)
    (h : lookup? n k = some (JVal.vobj o)) :
    lookup? (updAt n k f) k = some (JVal.vobj (f o)) := by
  unfold updAt
  rw [h]
  exact lookup?_setKey_self n k _

lemma getObjOr_of_lookup (d : JObj) (k : String) (o : JObj)
    (h : lookup? d k = some (JVal.vobj o)) : getObjOr d k = o := by
  simp [getObjOr, getJ, h]

lemma strippedStr?_ne (v : JVal) (m : String) (h : strippedStr? v = some m) :
    m ≠ "" := by
  cases v with
  | vs s =>
      simp only [strippedStr?] at h
      split at h
      · exact absurd h (by simp)
      · next hne =>
          injection h with h2
          rw [← h2]
          exact hne
  | vnone => simp [strippedStr?] at h
  | vb b => simp [strippedStr?] at h
  | vi i => simp [strippedStr?] at h
  | vobj o => simp [strippedStr?] at h
  | varr a => simp [strippedStr?] at h

/-- A guarded in-place dict update keeps the value at `k` a dict. -/
lemma updAtIf_obj (d : JObj) (k : String) (c : Bool) (f : JObj → JObj)
    (h : ∃ o, lookup? d k = some (JVal.vobj o)) :
    ∃ o2, lookup? (if c then updAt d k f else d) k = some (JVal.vobj o2) := by
  obtain ⟨o, ho⟩ := h
  cases c
  · exact ⟨o, ho⟩
  · exact ⟨f o, updAt_obj d k f o ho⟩

/-- `coerceNamed` leaves every other key untouched. -/
lemma coerceNamed_preserves (n : JObj) (k0 k : String) (hk : k ≠ k0) :
    lookup? (coerceNamed n k0) k = lookup? n k := by
  simp only [coerceNamed]
  repeat' split
  all_goals first | rfl | exact lookup?_setKey_ne _ _ _ _ hk

/-- After `coerceNamed`, the value at the coerced key is a dict. -/
lemma coerceNamed_obj (n : JObj) (k : String) :
    ∃ o, lookup? (coerceNamed n k) k = some (JVal.vobj o) := by
  rcases hl : lookup? n k with _ | v
  · exact ⟨[], by simp [coerceNamed, hl, lookup?_setKey_self]⟩
  · cases v with
    | vnone => exact ⟨[], by simp [coerceNamed, hl, lookup?_setKey_self]⟩
    | vb b =>
        exact ⟨[("name", JVal.vs (pyStr (JVal.vb b)))],
          by simp [coerceNamed, hl, lookup?_setKey_self]⟩
    | vs s =>
        exact ⟨[("name", JVal.vs (pyStr (JVal.vs s)))],
          by simp [coerceNamed, hl, lookup?_setKey_self]⟩
    | vi i =>
        exact ⟨[("name", JVal.vs (pyStr (JVal.vi i)))],
          by simp [coerceNamed, hl, lookup?_setKey_self]⟩
    | vobj o => exact ⟨o, by simp [coerceNamed, hl]⟩
    | varr a =>
        exact ⟨[("name", JVal.vs (pyStr (JVal.varr a)))],
          by simp [coerceNamed, hl, lookup?_setKey_self]⟩

lemma coerceReferral_preserves (n : JObj) (k : String) (hk : k ≠ "referral") :
    lookup? (coerceReferral n) k = lookup? n k := by
  simp only [coerceReferral]
  repeat' split
  all_goals first | rfl | exact lookup?_setKey_ne _ _ _ _ hk

lemma derivePatientN_preserves (n : JObj) (k : String) (hk : k ≠ "patient") :
    lookup? (derivePatientN n) k = lookup? n k := by
  have hstep : ∀ (d : JObj) (c : Bool) (f : JObj → JObj),
      lookup? (if c then updAt d "patient" f else d) k = lookup? d k := by
    intro d c f
    split
    · exact lookup?_updAt_ne d "patient" f k hk
    · rfl
  simp only [derivePatientN]
  simp only [hstep]

lemma payerFromVal_preserves (n0 : JObj) (k : String) (hk : k ≠ "payer") :
    lookup? (payerFromVal n0) k = lookup? n0 k := by
  have hstep : ∀ (d : JObj) (c : Bool) (f : JObj → JObj),
      lookup? (if c then updAt d "payer" f else d) k = lookup? d k := by
    intro d c f
    split
    · exact lookup?_updAt_ne d "payer" f k hk
    · rfl
  cases hg : getJ n0 "payer" <;> simp only [payerFromVal, hg, hstep]

lemma payerFlatMember_preserves (n : JObj) (k : String) (hk : k ≠ "payer") :
    lookup? (payerFlatMember n) k = lookup? n k := by
  have hstep : ∀ (d : JObj) (c : Bool) (f : JObj → JObj),
      lookup? (if c then updAt d "payer" f else d) k = lookup? d k := by
    intro d c f
    split
    · exact lookup?_updAt_ne d "payer" f k hk
    · rfl
  simp only [payerFlatMember, hstep]

lemma payerFallback_preserves (n : JObj) (k : String) (hk : k ≠ "payer") :
    lookup? (payerFallback n) k = lookup? n k := by
  have hstep : ∀ (d : JObj) (c : Bool) (f : JObj → JObj),
      lookup? (if c then updAt d "payer" f else d) k = lookup? d k := by
    intro d c f
    split
    · exact lookup?_updAt_ne d "payer" f k hk
    · rfl
  cases hauth : strippedStr? (getJ n "authorization_number") with
  | none =>
      cases hrid : strippedStr? (getJ n "referral_id") <;>
        simp only [payerFallback, hauth, hrid, hstep, ite_self]
  | some m1 => simp only [payerFallback, hauth, hstep]

lemma assessCoerce_preserves (n : JObj) (k : String) (hk : k ≠ "assessment") :
    lookup? (assessCoerce n) k = lookup? n k := by
  simp only [assessCoerce]
  repeat' split
  all_goals first | rfl | exact lookup?_setKey_ne _ _ _ _ hk

lemma assessDate_preserves (n : JObj) (k : String) (hk : k ≠ "assessment") :
    lookup? (assessDate n) k = lookup? n k := by
  simp only [assessDate]
  repeat' split
  all_goals first | rfl | exact lookup?_updAt_ne _ _ _ _ hk

lemma assessStatus_preserves (n : JObj) (k : String) (hk : k ≠ "assessment") :
    lookup? (assessStatus n) k = lookup? n k := by
  simp only [assessStatus]
  repeat' split
  all_goals first | rfl | exact lookup?_updAt_ne _ _ _ _ hk

lemma assessCompleted_preserves (n : JObj) (k : String) (hk : k ≠ "assessment") :
    lookup? (assessCompleted n) k = lookup? n k := by
  simp only [assessCompleted]
  repeat' split
  all_goals first | rfl | exact lookup?_updAt_ne _ _ _ _ hk

lemma assessDateFallback_preserves (n : JObj) (k : String) (hk : k ≠ "assessment") :
    lookup? (assessDateFallback n) k = lookup? n k := by
  simp only [assessDateFallback]
  repeat' split
  all_goals first | rfl | exact lookup?_updAt_ne _ _ _ _ hk

lemma assessFinal_preserves (n : JObj) (k : String) (hk : k ≠ "assessment") :
    lookup? (assessFinal n) k = lookup? n k := by
  simp only [assessFinal]
  repeat' split
  all_goals first | rfl | exact lookup?_updAt_ne _ _ _ _ hk

lemma deriveAssessment_preserves (n : JObj) (k : String) (hk : k ≠ "assessment") :
    lookup? (deriveAssessment n) k = lookup? n k := by
  simp only [deriveAssessment]
  rw [assessFinal_preserves _ _ hk, assessDateFallback_preserves _ _ hk,
      assessCompleted_preserves _ _ hk, assessStatus_preserves _ _ hk,
      assessDate_preserves _ _ hk, assessCoerce_preserves _ _ hk]

lemma deriveService_preserves (n : JObj) (k : String) (hk : k ≠ "referral") :
    lookup? (deriveService n) k = lookup? n k := by
  simp only [deriveService]
  repeat' split
  all_goals first | rfl | exact lookup?_updAt_ne _ _ _ _ hk

/-- `payerFromVal` keeps `normalized["payer"]` a dict. -/
lemma payerFromVal_obj (n : JObj) (o : JObj)
    (h : lookup? n "payer" = some (JVal.vobj o)) :
    ∃ o2, lookup? (payerFromVal n) "payer" = some (JVal.vobj o2) := by
  have hg : getJ n "payer" = JVal.vobj o := by simp [getJ, h]
  simp only [payerFromVal, hg]
  exact updAtIf_obj _ _ _ _ (updAtIf_obj _ _ _ _ ⟨o, h⟩)

/-- `payerFlatMember` keeps `normalized["payer"]` a dict. -/
lemma payerFlatMember_obj (n : JObj) (o : JObj)
    (h : lookup? n "payer" = some (JVal.vobj o)) :
    ∃ o2, lookup? (payerFlatMember n) "payer" = some (JVal.vobj o2) := by
  simp only [payerFlatMember]
  exact updAtIf_obj _ _ _ _ ⟨o, h⟩

/-- The fallback of lines 157–167: when the normalized data carries a non-blank
`referral_id`, the payer dict ends up with a truthy `member_id`. -/
lemma payerFallback_member (n : JObj) (o : JObj) (m : String)
    (h : lookup? n "payer" = some (JVal.vobj o))
    (hrid : strippedStr? (getJ n "referral_id") = some m) :
    truthy (getJ (getObjOr (payerFallback n) "payer") "member_id") = true := by
  by_cases hmem : truthy (getJ (getObjOr n "payer") "member_id") = true
  · have hn : payerFallback n = n := by simp [payerFallback, hmem]
    rw [hn]
    exact hmem
  · have hmem2 : truthy (getJ (getObjOr n "payer") "member_id") = false := by
      cases hb : truthy (getJ (getObjOr n "payer") "member_id")
      · rfl
      · exact absurd hb hmem
    rcases hauth : strippedStr? (getJ n "authorization_number") with _ | m1
    · have hred : payerFallback n
          = updAt n "payer" (fun p => setKey p "member_id" (JVal.vs m)) := by
        simp [payerFallback, hmem2, hauth, hrid]
      rw [hred]
      have h2 := updAt_obj n "payer" (fun p => setKey p "member_id" (JVal.vs m)) o h
      rw [getObjOr_of_lookup _ _ _ h2]
      have h3 : getJ (setKey o "member_id" (JVal.vs m)) "member_id" = JVal.vs m := by
        simp [getJ, lookup?_setKey_self]
      rw [h3]
      have hm := strippedStr?_ne _ _ hrid
      simp [truthy, hm]
    · have hred : payerFallback n
          = updAt n "payer" (fun p => setKey p "member_id" (JVal.vs m1)) := by
        simp [payerFallback, hmem2, hauth]
      rw [hred]
      have h2 := updAt_obj n "payer" (fun p => setKey p "member_id" (JVal.vs m1)) o h
      rw [getObjOr_of_lookup _ _ _ h2]
      have h3 : getJ (setKey o "member_id" (JVal.vs m1)) "member_id" = JVal.vs m1 := by
        simp [getJ, lookup?_setKey_self]
      rw [h3]
      have hm := strippedStr?_ne _ _ hauth
      simp [truthy, hm]

/-- Lines 169–171: a truthy payer member id ends up truthy in the legacy
`fields["member_id"]` as well (either it was already there, or it is synced). -/
lemma payerFieldsSync_member (n f : JObj)
    (h : truthy (getJ (getObjOr n "payer") "member_id") = true) :
    truthy (getJ (payerFieldsSync n f) "member_id") = true := by
  by_cases hf : truthy (getJ f "member_id") = true
  · have hn : payerFieldsSync n f = f := by simp [payerFieldsSync, hf]
    rw [hn]
    exact hf
  · have hf2 : truthy (getJ f "member_id") = false := by
      cases hb : truthy (getJ f "member_id")
      · rfl
      · exact absurd hb hf
    have hn : payerFieldsSync n f
        = setKey f "member_id" (getJ (getObjOr n "payer") "member_id") := by
      simp [payerFieldsSync, h, hf2]
    rw [hn]
    have h3 : getJ (setKey f "member_id" (getJ (getObjOr n "payer") "member_id"))
        "member_id" = getJ (getObjOr n "payer") "member_id" := by
      simp [getJ, lookup?_setKey_self]
    rw [h3]
    exact h

/-- The whole bridge chain of `apply_agent_result` after the merge step: a
non-blank normalized `referral_id` forces a truthy `payer.member_id` in the
final normalized dict and a truthy legacy `member_id` in the final fields. -/
lemma payerChain_member (n0 f0 : JObj) (m : String)
    (hrid : strippedStr? (getJ n0 "referral_id") = some m) :
    truthy (getJ (getObjOr (deriveService (deriveAssessment (payerFallback
      (payerFlatMember (payerFromVal (derivePatientN (coerceReferral
      (coerceNamed (coerceNamed n0 "patient") "payer")))))))) "payer")
      "member_id") = true
    ∧ truthy (getJ (payerFieldsSync (payerFallback (payerFlatMember (payerFromVal
      (derivePatientN (coerceReferral (coerceNamed (coerceNamed n0 "patient")
      "payer")))))) f0) "member_id") = true := by
  obtain ⟨n2, hn2⟩ : ∃ x, coerceNamed (coerceNamed n0 "patient") "payer" = x :=
    ⟨_, rfl⟩
  rw [hn2]
  obtain ⟨n3, hn3⟩ : ∃ x, derivePatientN (coerceReferral n2) = x := ⟨_, rfl⟩
  rw [hn3]
  obtain ⟨nf, hnf⟩ : ∃ x, payerFallback (payerFlatMember (payerFromVal n3)) = x :=
    ⟨_, rfl⟩
  rw [hnf]
  obtain ⟨o, ho⟩ := coerceNamed_obj (coerceNamed n0 "patient") "payer"
  have ho2 : lookup? n2 "payer" = some (JVal.vobj o) := hn2 ▸ ho
  have ho3 : lookup? n3 "payer" = some (JVal.vobj o) := by
    rw [← hn3, derivePatientN_preserves _ "payer" (by decide),
        coerceReferral_preserves _ "payer" (by decide)]
    exact ho2
  obtain ⟨oA, hoA⟩ := payerFromVal_obj n3 o ho3
  obtain ⟨oB, hoB⟩ := payerFlatMember_obj (payerFromVal n3) oA hoA
  have hl0 : lookup? (payerFlatMember (payerFromVal n3)) "referral_id"
      = lookup? n0 "referral_id" := by
    rw [payerFlatMember_preserves _ "referral_id" (by decide),
        payerFromVal_preserves _ "referral_id" (by decide),
        ← hn3, derivePatientN_preserves _ "referral_id" (by decide),
        coerceReferral_preserves _ "referral_id" (by decide),
        ← hn2, coerceNamed_preserves _ "payer" "referral_id" (by decide),
        coerceNamed_preserves _ "patient" "referral_id" (by decide)]
  have hridB : strippedStr? (getJ (payerFlatMember (payerFromVal n3))
      "referral_id") = some m := by
    unfold getJ
    rw [hl0]
    exact hrid
  have hmem : truthy (getJ (getObjOr nf "payer") "member_id") = true := by
    rw [← hnf]
    exact payerFallback_member (payerFlatMember (payerFromVal n3)) oB m hoB hridB
  constructor
  · have hlp : lookup? (deriveService (deriveAssessment nf)) "payer"
        = lookup? nf "payer" := by
      rw [deriveService_preserves _ "payer" (by decide),
          deriveAssessment_preserves _ "payer" (by decide)]
    have hgo : getObjOr (deriveService (deriveAssessment nf)) "payer"
        = getObjOr nf "payer" := by
      unfold getObjOr getJ
      rw [hlp]
    rw [hgo]
    exact hmem
  · exact payerFieldsSync_member nf f0 hmem

/-- The normalized dict of `apply_agent_result`'s output, as the explicit
composition of the bridge phases. -/
lemma applyAgentResult_normalized (ctx : Ctx) (d : AgentData) :
    (applyAgentResult ctx d).normalized
    = deriveService (deriveAssessment (payerFallback (payerFlatMember (payerFromVal
        (derivePatientN (coerceReferral (coerceNamed (coerceNamed
        (bridgeFields (mergeStep ctx d)).normalized "patient") "payer"))))))) := by
  dsimp only [applyAgentResult, payerSync]

/-- The fields dict of `apply_agent_result`'s output, as the explicit
composition of the bridge phases. -/
lemma applyAgentResult_fields (ctx : Ctx) (d : AgentData) :
    (applyAgentResult ctx d).fields
    = payerFieldsSync (payerFallback (payerFlatMember (payerFromVal
        (derivePatientN (coerceReferral (coerceNamed (coerceNamed
        (bridgeFields (mergeStep ctx d)).normalized "patient") "payer"))))))
        (bridgeFields (mergeStep ctx d)).fields := by
  dsimp only [applyAgentResult, payerSync]

/-- **C10.** `apply_agent_result` synthesizes a missing `payer.member_id` from
`authorization_number`, else from `referral_id` (lines 157–167), and mirrors it
into the legacy flat `member_id` field (lines 169–171): whenever the merged
context's normalized data carries a non-blank `referral_id`, the post-merge
context has a truthy `payer.member_id` and a truthy legacy `fields["member_id"]`,
even when no member id was ever supplied. -/
theorem c10_member_id_fallback (ctx : Ctx) (d : AgentData) (m : String)
    (hrid : strippedStr? (getJ (mergeStep ctx d).normalized "referral_id")
      = some m) :
    truthy (getJ (getObjOr (applyAgentResult ctx d).normalized "payer")
      "member_id") = true
    ∧ truthy (getJ (applyAgentResult ctx d).fields "member_id") = true := by
  rw [applyAgentResult_normalized, applyAgentResult_fields]
  refine payerChain_member (bridgeFields (mergeStep ctx d)).normalized
    (bridgeFields (mergeStep ctx d)).fields m ?_
  have hb : (bridgeFields (mergeStep ctx d)).normalized
      = (mergeStep ctx d).normalized := rfl
  rw [hb]
  exact hrid

theorem c10_member_id_fallback_witness :
    strippedStr? (getJ (mergeStep
        ⟨"REFERRAL_RECEIVED", [], [], [("referral_id", JVal.vs "REF-7")], []⟩
        {}).normalized "referral_id") = some "REF-7"
    ∧ (truthy (getJ (getObjOr (applyAgentResult
          ⟨"REFERRAL_RECEIVED", [], [], [("referral_id", JVal.vs "REF-7")], []⟩
          {}).normalized "payer") "member_id") = true
       ∧ truthy (getJ (applyAgentResult
          ⟨"REFERRAL_RECEIVED", [], [], [("referral_id", JVal.vs "REF-7")], []⟩
          {}).fields "member_id") = true) :=
  ⟨by decide, c10_member_id_fallback _ _ "REF-7" (by decide)⟩

end HealthOps
